import Mathlib

set_option maxHeartbeats 1000000

/-!
Verification model of run_simulation.py, the ChampSim prefetching simulation
runner (the whole repository consists of this one script).

The script's external effects (filesystem, subprocesses, wall clock, uuid
generation) are modelled by an explicit read-only environment Env together
with a state S threaded through every function; each function returns its
result paired with the updated state, and Python exceptions are modelled with
Except.  uuid4().hex values are modelled as fresh tokens drawn from a counter,
and each call of datetime.datetime.now is modelled as reading a clock stream
at an increasing tick.  Every observable action (mkdir, copyfile, writing
run_metadata.json, starting a simulator process, rmtree, running ./config.sh
or make) is appended to an event log in program order.
-/

/-- Exit status and captured output of one external process invocation. -/
structure ProcResult where
  exitCode : Nat
  stdout : String
  stderr : String
deriving DecidableEq, Repr

/-- Python exceptions that run_simulation.py can raise.  CalledProcessError is
raised by subprocess.run(..., check=True) and carries the captured output;
launchError stands for the FileNotFoundError/OSError raised by subprocess.Popen
when the simulator executable cannot be started. -/
inductive Err where
  | calledProcessError (cmd : List String) (stdout stderr : String)
  | valueError (msg : String)
  | fileExistsError (msg : String)
  | ioError (msg : String)
  | indexError
  | launchError
deriving DecidableEq, Repr

/-- The JSON object written to run_metadata.json (lines 192-207); the uuid hex
strings run_id and sim_id are modelled as Nat tokens. -/
structure Metadata where
  trace_path : List String
  trace_checksum : List String
  git_commit : String
  prefetcher : String
  run_id : Nat
  sim_id : Nat
  run_datetime : String
  command : List String
deriving DecidableEq, Repr

/-- Observable external actions performed by the script, in program order. -/
inductive Event where
  | mkdir (p : String)
  | copyfile (src dst : String)
  | configure
  | make
  | writeMetadata (dir : String) (md : Metadata)
  | launch (dir : String) (cmd : List String)
  | rmtree (p : String)
deriving DecidableEq, Repr

/-- The configuration fields read from champsim_config.json (lines 279-283). -/
structure Config where
  l1d_prefetcher : String
  l2c_prefetcher : String
  num_cores : Nat
deriving DecidableEq, Repr

/-- External world: which paths pre-exist, the clock stream, the outcome of
each external process, whether each copy/open/Popen call succeeds, the parsed
configuration, and the contents (line list) of the tracelist file. -/
structure Env where
  initExists : String → Bool
  nowIso : Nat → String
  cwd : String
  sha1 : String → ProcResult
  sha256 : String → ProcResult
  git : ProcResult
  configure : ProcResult
  make : ProcResult
  copyfileOk : String → String → Bool
  openWriteOk : String → Bool
  popenOk : Bool
  config : Config
  fileLines : String → List String

/-- Mutable state: directories created so far by this run, the clock tick, the
uuid counter, and the event log. -/
structure S where
  fs : List String
  tick : Nat
  uuidCtr : Nat
  events : List Event
deriving DecidableEq, Repr

def initS : S := { fs := [], tick := 0, uuidCtr := 0, events := [] }

/-- Path existence as seen by pathlib .exists(): a path exists if it existed
before the run or was created during it. -/
def pexists (env : Env) (s : S) (p : String) : Bool :=
  env.initExists p || s.fs.contains p

def pushEvent (s : S) (e : Event) : S :=
  { s with events := s.events ++ [e] }

def mkdirS (s : S) (p : String) : S :=
  { s with fs := p :: s.fs, events := s.events ++ [Event.mkdir p] }

/-- Whether the character list p is a leading segment of the character list l. -/
def startsWithL : List Char → List Char → Bool
  | [], _ => true
  | _ :: _, [] => false
  | p :: ps, c :: cs => p == c && startsWithL ps cs

/-- Fuelled core of Python str.replace: replace every non-overlapping
occurrence, scanning left to right. -/
def replFuel (pat repl : List Char) : Nat → List Char → List Char
  | 0, l => l
  | _ + 1, [] => []
  | n + 1, c :: cs =>
    if startsWithL pat (c :: cs) && !pat.isEmpty then
      repl ++ replFuel pat repl n (List.drop (pat.length - 1) cs)
    else
      c :: replFuel pat repl n cs

/-- Python str.replace(pat, repl). -/
def pyReplace (s pat repl : String) : String :=
  String.mk (replFuel pat.data repl.data s.data.length s.data)

def containsC (cs : List Char) (c : Char) : Bool := cs.contains c

/-- Python str.strip(chars): remove leading and trailing characters drawn from
the character set cs. -/
def pyStrip (cs : List Char) (s : String) : String :=
  String.mk (((s.data.dropWhile (containsC cs)).reverse.dropWhile (containsC cs)).reverse)

/-- Whitespace set used by Python str.strip() for the outputs appearing in this
program. -/
def wsChars : List Char := [' ', '\t', '\n', '\r']

/-- Python str.split(sep) for a one-character separator (keeps empty pieces,
and the empty string splits to one empty piece, as in Python). -/
def splitOnC (sep : Char) : List Char → List (List Char)
  | [] => [[]]
  | c :: cs =>
    if c == sep then [] :: splitOnC sep cs
    else
      match splitOnC sep cs with
      | [] => [[c]]
      | g :: gs => (c :: g) :: gs

def pySplit (sep : Char) (s : String) : List String :=
  (splitOnC sep s.data).map String.mk

/-- str(pathlib.Path(s)): the empty string becomes ".", any other plain name is
unchanged (further pathlib normalisation is not exercised by this script). -/
def pyPath (s : String) : String := if s.data.isEmpty then "." else s

/-- pathlib .resolve(): make a path absolute against the working directory. -/
def resolveP (env : Env) (p : String) : String :=
  if startsWithL ['/'] p.data then p else env.cwd ++ "/" ++ p

/-- pathlib .name: the last nonempty path component. -/
def nameOf (p : String) : String :=
  String.mk (((splitOnC '/' p.data).filter (fun l => !l.isEmpty)).getLastD [])

/-- Index of the last occurrence of a dot in a character list. -/
def rfindDot : List Char → Option Nat
  | [] => none
  | c :: cs =>
    match rfindDot cs with
    | some i => some (i + 1)
    | none => if c == '.' then some 0 else none

/-- pathlib .stem: the final component without its suffix (the suffix starts at
the last dot, provided that dot is neither the first nor past the second-to-last
character, exactly as in CPython pathlib). -/
def stemOf (p : String) : String :=
  let n := (nameOf p).data
  match rfindDot n with
  | none => String.mk n
  | some i => if 0 < i ∧ i < n.length - 1 then String.mk (n.take i) else String.mk n

/-- Timestamp formatting of create_directory (lines 114-115): isoformat with
second precision, colons removed, and the +0000 zero offset replaced by Z. -/
def fmtNow (ts : String) : String :=
  pyReplace (pyReplace ts ":" "") "+0000" "Z"

/-- create_directory (run_simulation.py lines 106-124).  Creates the output
root on demand, derives the run directory name from the timestamp, the stem of
the lead trace and the prefetcher, creates that directory only when it does not
already exist, and returns the path in every case. -/
def create_directory (env : Env) (output_dir trace_path prefetcher : String)
    (dry_run : Bool) (s : S) : String × S :=
  let s1 := if pexists env s output_dir then s else mkdirS s output_dir
  let now_str := fmtNow (env.nowIso s1.tick)
  let s2 : S := { s1 with tick := s1.tick + 1 }
  let trace_name := stemOf trace_path
  let results_dir := now_str ++ "_" ++ trace_name ++ "_" ++ prefetcher
  let results_path := output_dir ++ "/" ++ results_dir
  let s3 := if !(pexists env s2 results_path) && !dry_run then mkdirS s2 results_path else s2
  (results_path, s3)

/-- subprocess.run(cmd, capture_output=True, text=True, check=True) followed by
.stdout.strip(): raises CalledProcessError with the captured output when the
process exits non-zero. -/
def runChecked (cmd : List String) (r : ProcResult) : Except Err String :=
  if r.exitCode = 0 then Except.ok (pyStrip wsChars r.stdout)
  else Except.error (Err.calledProcessError cmd r.stdout r.stderr)

/-- The per-trace sha1sum loop of run_simulation (lines 172-179). -/
def checksumList (env : Env) : List String → Except Err (List String)
  | [] => Except.ok []
  | t :: ts =>
    match runChecked ["sha1sum", t] (env.sha1 t) with
    | Except.error e => Except.error e
    | Except.ok c =>
      match checksumList env ts with
      | Except.error e => Except.error e
      | Except.ok cs => Except.ok (c :: cs)

/-- The run_metadata.json record exactly as the dict literal at lines 193-206
builds it. -/
def mdOf (trace_path trace_checksum : List String) (git_commit prefetcher : String)
    (run_id sim_id : Nat) (run_datetime : String) (command : List String) : Metadata :=
  { trace_path := trace_path, trace_checksum := trace_checksum,
    git_commit := git_commit, prefetcher := prefetcher,
    run_id := run_id, sim_id := sim_id,
    run_datetime := run_datetime, command := command }

/-- run_simulation (run_simulation.py lines 127-234), with daemonize = True as
main invokes it: allocate the directory, copy the config, compute checksums and
the git revision, write run_metadata.json, then start the simulator in the
background.  trace_path[0] raises IndexError on an empty group. -/
def run_simulation (env : Env) (trace_path : List String)
    (config_path output_dir prefetcher : String)
    (warmup_instructions simulation_instructions : Nat)
    (run_id : Nat) (s : S) : Except Err Unit × S :=
  match trace_path with
  | [] => (Except.error Err.indexError, s)
  | t0 :: _ =>
    let cd := create_directory env output_dir t0 prefetcher false s
    let results_path := cd.1
    let s1 := cd.2
    if env.copyfileOk config_path (results_path ++ "/champsim_config.json") then
      let s2 := pushEvent s1 (Event.copyfile config_path (results_path ++ "/champsim_config.json"))
      let cmd := [resolveP env "bin/champsim",
                  "--warmup-instructions", toString warmup_instructions,
                  "--simulation-instructions", toString simulation_instructions,
                  "--json", resolveP env (results_path ++ "/simulation_results.json")]
                 ++ trace_path.map (resolveP env)
      match checksumList env trace_path with
      | Except.error e => (Except.error e, s2)
      | Except.ok trace_checksums =>
        match runChecked ["sha256sum", config_path] (env.sha256 config_path) with
        | Except.error e => (Except.error e, s2)
        | Except.ok _config_checksum =>
          match runChecked ["git", "rev-parse", "HEAD"] env.git with
          | Except.error e => (Except.error e, s2)
          | Except.ok git_commit =>
            if env.openWriteOk (results_path ++ "/run_metadata.json") then
              let sim_id := s2.uuidCtr
              let run_datetime := env.nowIso s2.tick
              let s3 : S := { s2 with uuidCtr := s2.uuidCtr + 1, tick := s2.tick + 1 }
              let md : Metadata := mdOf trace_path trace_checksums git_commit prefetcher
                run_id sim_id run_datetime cmd
              let s4 := pushEvent s3 (Event.writeMetadata results_path md)
              if env.openWriteOk (results_path ++ "/sim_output.log") then
                if env.popenOk then
                  (Except.ok (), pushEvent s4 (Event.launch results_path cmd))
                else (Except.error Err.launchError, s4)
              else (Except.error (Err.ioError "open sim_output.log"), s4)
            else (Except.error (Err.ioError "open run_metadata.json"), s2)
    else (Except.error (Err.ioError "copyfile"), s1)

/-- The parsed command line of run_simulation.py (lines 21-103). -/
structure Args where
  config : String
  quiet : Bool
  skip_make : Bool
  output : String
  warmup : Nat
  sim : Nat
  trace : Option (List String)
  tracelist : Option String
deriving DecidableEq, Repr

/-- The configure-and-make block of main (lines 301-324): skipped entirely when
--skip-make is given; otherwise ./config.sh then make -j 28 are run with
check=True, so a non-zero exit raises CalledProcessError with the captured
stdout/stderr. -/
def buildPhase (env : Env) (args : Args) (config_path : String) (s : S) :
    Except Err Unit × S :=
  if args.skip_make then (Except.ok (), s)
  else
    let s1 := pushEvent s Event.configure
    if env.configure.exitCode = 0 then
      let s2 := pushEvent s1 Event.make
      if env.make.exitCode = 0 then (Except.ok (), s2)
      else
        (Except.error (Err.calledProcessError ["make", "-j", "28"]
          env.make.stdout env.make.stderr), s2)
    else
      (Except.error (Err.calledProcessError ["./config.sh", resolveP env config_path]
        env.configure.stdout env.configure.stderr), s1)

/-- The per-group loop of main (lines 326-336): run_simulation is called for
each group in order with no exception handling, so the first raised exception
propagates out of the loop. -/
def simLoop (env : Env) (config_path output_dir prefetcher : String)
    (warmup sim run_id : Nat) : List (List String) → S → Except Err Unit × S
  | [], s => (Except.ok (), s)
  | g :: rest, s =>
    match run_simulation env g config_path output_dir prefetcher warmup sim run_id s with
    | (Except.error e, s') => (Except.error e, s')
    | (Except.ok _, s') => simLoop env config_path output_dir prefetcher warmup sim run_id rest s'

/-- Construction of tracepaths from the arguments (lines 243-258).  With
--tracelist, each line is stripped of ", \n", split on commas, and all lines
must have the same number of entries.  With --trace, the list of argument
strings is itself bound to tracelist, so the group comprehension iterates each
argument string character by character, building one single-character path per
character. -/
def traceBatch (env : Env) (args : Args) : Except Err (List (List String)) :=
  match args.tracelist with
  | some path =>
    let tracelines := env.fileLines path
    let tracelist := tracelines.map (fun l => pySplit ',' (pyStrip [',', ' ', '\n'] l))
    if tracelist.all (fun t => t.length == (tracelist.headD []).length) then
      Except.ok (tracelist.map (fun g => g.map pyPath))
    else
      Except.error (Err.valueError
        "Each line in the tracelist file must have the same number of traces.")
  | none =>
    match args.trace with
    | some ts => Except.ok (ts.map (fun t => t.data.map (fun c => pyPath (String.singleton c))))
    | none => Except.error (Err.valueError
        "Exactly one of --trace or --tracelist must be specified.")

/-- One group's broadcast loop body (lines 293-295): the j-loop appends
tracepaths[i][0] — the unchanging first element — num_cores - 1 times. -/
def innerLoop : Nat → List String → List String
  | 0, l => l
  | n + 1, l => innerLoop n (l ++ [l.headD ""])

/-- The broadcast expansion of main (lines 291-295) at the level of the list
contents; indexing tracepaths[i][0] raises IndexError on an empty group. -/
def expandBatch (num_cores : Nat) : List (List String) → Except Err (List (List String))
  | [] => Except.ok []
  | g :: gs =>
    match g with
    | [] => Except.error Err.indexError
    | p :: rest =>
      match expandBatch num_cores gs with
      | Except.error e => Except.error e
      | Except.ok gs' => Except.ok (innerLoop (num_cores - 1) (p :: rest) :: gs')

/-- Pointwise update of a heap of Python list objects. -/
def updateAt (h : Nat → List String) (i : Nat) (v : List String) : Nat → List String :=
  fun k => if k = i then v else h k

/-- Heap-level model of the broadcast expansion (lines 291-295): tracepaths is a
list of references (object ids) into a heap of Python list objects, and each
group object is mutated in place by .append, i.e. the heap cell holding the
group is overwritten with the extended contents. -/
def expandHeap (num_cores : Nat) (ids : List Nat) (h : Nat → List String) :
    Nat → List String :=
  ids.foldl (fun hh i => updateAt hh i (innerLoop (num_cores - 1) (hh i))) h

/-- mainFn models main (run_simulation.py lines 237-338; the name main is reserved by Lean): build the trace batch, draw the run
id, create the temp config copy, parse the configuration, validate the shape of
the first group, broadcast singleton groups, configure and make, run every
group, and finally remove the temp directory.  There is no exception handling
anywhere, so any raised error propagates immediately. -/
def mainFn (env : Env) (args : Args) (s : S) : Except Err Unit × S :=
  match traceBatch env args with
  | Except.error e => (Except.error e, s)
  | Except.ok tracepaths =>
    let run_id := s.uuidCtr
    let s1 : S := { s with uuidCtr := s.uuidCtr + 1 }
    let temp_path := "temp_" ++ toString run_id
    if pexists env s1 temp_path then
      (Except.error (Err.fileExistsError "Temporary directory already exists!"), s1)
    else
      let s2 := mkdirS s1 temp_path
      let config_path := temp_path ++ "/champsim_config.json"
      if env.copyfileOk args.config config_path then
        let s3 := pushEvent s2 (Event.copyfile args.config config_path)
        let prefetcher :=
          if env.config.l1d_prefetcher ≠ "no" then env.config.l1d_prefetcher
          else env.config.l2c_prefetcher
        let num_cores := env.config.num_cores
        match tracepaths with
        | [] => (Except.error Err.indexError, s3)
        | tp0 :: rest =>
          if tp0.length ≠ 1 ∧ tp0.length ≠ num_cores then
            (Except.error (Err.valueError
              "The number of traces must be equal to the number of cores or one."), s3)
          else
            match (if tp0.length = 1 ∧ num_cores > 1
                   then expandBatch num_cores (tp0 :: rest)
                   else Except.ok (tp0 :: rest)) with
            | Except.error e => (Except.error e, s3)
            | Except.ok tracepaths2 =>
              match buildPhase env args config_path s3 with
              | (Except.error e, s4) => (Except.error e, s4)
              | (Except.ok _, s4) =>
                match simLoop env config_path args.output prefetcher
                    args.warmup args.sim run_id tracepaths2 s4 with
                | (Except.error e, s5) => (Except.error e, s5)
                | (Except.ok _, s5) => (Except.ok (), pushEvent s5 (Event.rmtree temp_path))
      else (Except.error (Err.ioError "copyfile"), s2)

/-- Event classifiers used by the stated properties. -/
def isLaunch : Event → Bool
  | Event.launch _ _ => true
  | _ => false

def isRmtree : Event → Bool
  | Event.rmtree _ => true
  | _ => false

def isMkdirCopy : Event → Bool
  | Event.mkdir _ => true
  | Event.copyfile _ _ => true
  | _ => false

/-- Simulation-id tokens of all metadata records in an event list. -/
def simIds (l : List Event) : List Nat :=
  l.filterMap (fun e => match e with
    | Event.writeMetadata _ md => some md.sim_id
    | _ => none)

/-- Run-id tokens of all metadata records in an event list. -/
def runIds (l : List Event) : List Nat :=
  l.filterMap (fun e => match e with
    | Event.writeMetadata _ md => some md.run_id
    | _ => none)

/-- covered l seen is true when every launch event in l is preceded, within l
or by the seed set seen, by a metadata write into the same directory. -/
def covered : List Event → List String → Bool
  | [], _ => true
  | Event.launch d _ :: rest, seen => seen.contains d && covered rest seen
  | Event.writeMetadata d _ :: rest, seen => covered rest (d :: seen)
  | _ :: rest, seen => covered rest seen

/-- Directories of metadata writes in l, accumulated onto seen. -/
def wmAcc : List Event → List String → List String
  | [], seen => seen
  | Event.writeMetadata d _ :: rest, seen => wmAcc rest (d :: seen)
  | _ :: rest, seen => wmAcc rest seen

/-- Invariant satisfied by the event-log suffix produced by the per-group phase
of the run: launches are covered by earlier metadata writes, all metadata
records carry the run id rid, simulation ids are strictly increasing and drawn
from the half-open counter range [lo, hi), and the suffix contains no rmtree,
configure or make event. -/
def TailOK (rid lo hi : Nat) (t : List Event) : Prop :=
  (∀ seen, covered t seen = true) ∧
  (∀ k ∈ runIds t, k = rid) ∧
  (simIds t).Pairwise (· < ·) ∧
  (∀ k ∈ simIds t, lo ≤ k ∧ k < hi) ∧
  t.countP isRmtree = 0 ∧
  Event.configure ∉ t ∧
  Event.make ∉ t

/-! Helper lemmas about the event-log predicates. -/

lemma covered_append (t₁ t₂ : List Event) (seen : List String) :
    covered (t₁ ++ t₂) seen = (covered t₁ seen && covered t₂ (wmAcc t₁ seen)) := by
  induction t₁ generalizing seen with
  | nil => simp [covered, wmAcc]
  | cons e rest ih =>
    cases e <;> simp [covered, wmAcc, ih, Bool.and_assoc]

lemma covered_of_noLaunch (t : List Event) :
    ∀ seen, t.countP isLaunch = 0 → covered t seen = true := by
  induction t with
  | nil => intro seen _; rfl
  | cons e rest ih =>
    intro seen h
    rw [List.countP_cons] at h
    cases e with
    | launch d c =>
      rw [show isLaunch (Event.launch d c) = true from rfl] at h
      simp at h
    | writeMetadata d md =>
      rw [show isLaunch (Event.writeMetadata d md) = false from rfl] at h
      exact ih (d :: seen) (by simpa using h)
    | mkdir p =>
      rw [show isLaunch (Event.mkdir p) = false from rfl] at h
      exact ih seen (by simpa using h)
    | copyfile a b =>
      rw [show isLaunch (Event.copyfile a b) = false from rfl] at h
      exact ih seen (by simpa using h)
    | configure =>
      rw [show isLaunch Event.configure = false from rfl] at h
      exact ih seen (by simpa using h)
    | make =>
      rw [show isLaunch Event.make = false from rfl] at h
      exact ih seen (by simpa using h)
    | rmtree p =>
      rw [show isLaunch (Event.rmtree p) = false from rfl] at h
      exact ih seen (by simpa using h)

lemma simIds_append (t₁ t₂ : List Event) :
    simIds (t₁ ++ t₂) = simIds t₁ ++ simIds t₂ := by
  simp [simIds, List.filterMap_append]

lemma runIds_append (t₁ t₂ : List Event) :
    runIds (t₁ ++ t₂) = runIds t₁ ++ runIds t₂ := by
  simp [runIds, List.filterMap_append]

lemma clean_basics (t : List Event) (h : ∀ e ∈ t, isMkdirCopy e = true) :
    simIds t = [] ∧ runIds t = [] ∧ t.countP isRmtree = 0 ∧
    t.countP isLaunch = 0 ∧ Event.configure ∉ t ∧ Event.make ∉ t := by
  induction t with
  | nil => simp [simIds, runIds]
  | cons e rest ih =>
    have he := h e (by simp)
    obtain ⟨h1, h2, h3, h4, h5, h6⟩ := ih (fun x hx => h x (by simp [hx]))
    cases e with
    | mkdir p =>
      refine ⟨?_, ?_, ?_, ?_, ?_, ?_⟩ <;>
        simp [simIds, runIds, List.countP_cons, isRmtree, isLaunch,
          h1, h2, h3, h4, h5, h6] at h1 h2 ⊢ <;> tauto
    | copyfile a b =>
      refine ⟨?_, ?_, ?_, ?_, ?_, ?_⟩ <;>
        simp [simIds, runIds, List.countP_cons, isRmtree, isLaunch,
          h1, h2, h3, h4, h5, h6] at h1 h2 ⊢ <;> tauto
    | configure => simp [isMkdirCopy] at he
    | make => simp [isMkdirCopy] at he
    | writeMetadata d md => simp [isMkdirCopy] at he
    | launch d c => simp [isMkdirCopy] at he
    | rmtree p => simp [isMkdirCopy] at he

lemma TailOK_nil (rid lo hi : Nat) : TailOK rid lo hi [] := by
  refine ⟨fun seen => rfl, ?_, ?_, ?_, ?_, ?_, ?_⟩ <;> simp [simIds, runIds]

lemma TailOK_of_clean {t : List Event} (rid lo hi : Nat)
    (h : ∀ e ∈ t, isMkdirCopy e = true) : TailOK rid lo hi t := by
  obtain ⟨h1, h2, h3, h4, h5, h6⟩ := clean_basics t h
  exact ⟨fun seen => covered_of_noLaunch t seen h4, by simp [h2], by simp [h1],
    by simp [h1], h3, h5, h6⟩

lemma TailOK_append {rid lo mid hi : Nat} {t₁ t₂ : List Event}
    (h₁ : TailOK rid lo mid t₁) (h₂ : TailOK rid mid hi t₂)
    (hlm : lo ≤ mid) (hmh : mid ≤ hi) : TailOK rid lo hi (t₁ ++ t₂) := by
  obtain ⟨c1, r1, p1, b1, m1, cf1, mk1⟩ := h₁
  obtain ⟨c2, r2, p2, b2, m2, cf2, mk2⟩ := h₂
  refine ⟨?_, ?_, ?_, ?_, ?_, ?_, ?_⟩
  · intro seen
    rw [covered_append, c1 seen, c2 (wmAcc t₁ seen)]
    rfl
  · intro k hk
    rw [runIds_append, List.mem_append] at hk
    rcases hk with hk | hk
    · exact r1 k hk
    · exact r2 k hk
  · rw [simIds_append, List.pairwise_append]
    refine ⟨p1, p2, ?_⟩
    intro a ha b hb
    exact lt_of_lt_of_le (b1 a ha).2 (b2 b hb).1
  · intro k hk
    rw [simIds_append, List.mem_append] at hk
    rcases hk with hk | hk
    · exact ⟨(b1 k hk).1, lt_of_lt_of_le (b1 k hk).2 hmh⟩
    · exact ⟨le_trans hlm (b2 k hk).1, (b2 k hk).2⟩
  · rw [List.countP_append, m1, m2]
  · rw [List.mem_append]
    rintro (h | h)
    · exact cf1 h
    · exact cf2 h
  · rw [List.mem_append]
    rintro (h | h)
    · exact mk1 h
    · exact mk2 h

lemma covered_wm_launch (d : String) (md : Metadata) (c : List String)
    (seen : List String) :
    covered [Event.writeMetadata d md, Event.launch d c] seen = true := by
  simp [covered, List.contains_cons]

lemma TailOK_wm_single (rid lo hi : Nat) (d : String) (md : Metadata)
    (hr : md.run_id = rid) (hs : md.sim_id = lo) (hlh : lo < hi) :
    TailOK rid lo hi [Event.writeMetadata d md] := by
  refine ⟨fun seen => rfl, ?_, ?_, ?_, rfl, by simp, by simp⟩
  · intro k hk
    have : runIds [Event.writeMetadata d md] = [md.run_id] := rfl
    rw [this] at hk
    simp at hk
    omega
  · have : simIds [Event.writeMetadata d md] = [md.sim_id] := rfl
    rw [this]
    exact List.pairwise_singleton _ _
  · intro k hk
    have : simIds [Event.writeMetadata d md] = [md.sim_id] := rfl
    rw [this] at hk
    simp at hk
    omega

lemma TailOK_wm_launch (rid lo hi : Nat) (d : String) (md : Metadata) (c : List String)
    (hr : md.run_id = rid) (hs : md.sim_id = lo) (hlh : lo < hi) :
    TailOK rid lo hi [Event.writeMetadata d md, Event.launch d c] := by
  refine ⟨covered_wm_launch d md c, ?_, ?_, ?_, rfl, by simp, by simp⟩
  · intro k hk
    have : runIds [Event.writeMetadata d md, Event.launch d c] = [md.run_id] := rfl
    rw [this] at hk
    simp at hk
    omega
  · have : simIds [Event.writeMetadata d md, Event.launch d c] = [md.sim_id] := rfl
    rw [this]
    exact List.pairwise_singleton _ _
  · intro k hk
    have : simIds [Event.writeMetadata d md, Event.launch d c] = [md.sim_id] := rfl
    rw [this] at hk
    simp at hk
    omega

lemma countP_isLaunch_wm_launch (pre : List Event)
    (h : ∀ e ∈ pre, isMkdirCopy e = true) (d : String) (md : Metadata) (c : List String) :
    (pre ++ [Event.writeMetadata d md, Event.launch d c]).countP isLaunch = 1 := by
  rw [List.countP_append, (clean_basics pre h).2.2.2.1]
  rfl

lemma innerLoop_cons (n : Nat) (p : String) (rest : List String) :
    innerLoop n (p :: rest) = p :: (rest ++ List.replicate n p) := by
  induction n generalizing rest with
  | zero => simp [innerLoop]
  | succ n ih =>
    have h1 : innerLoop (n + 1) (p :: rest) = innerLoop n (p :: (rest ++ [p])) := by
      simp [innerLoop]
    rw [h1, ih (rest ++ [p])]
    simp [List.append_assoc]
    rw [← List.replicate_succ, List.replicate_succ']

lemma expandBatch_length (n : Nat) :
    ∀ tps tps2, expandBatch n tps = Except.ok tps2 → tps2.length = tps.length := by
  intro tps
  induction tps with
  | nil => intro tps2 h; simp [expandBatch] at h; simp [← h]
  | cons g gs ih =>
    intro tps2 h
    cases g with
    | nil => simp [expandBatch] at h
    | cons p rest =>
      simp only [expandBatch] at h
      cases hgs : expandBatch n gs with
      | error e => rw [hgs] at h; exact absurd h (by simp)
      | ok gs' =>
        rw [hgs] at h
        simp at h
        rw [← h]
        simp [ih gs' hgs]

lemma expandBatch_all_singleton (n : Nat) (hn : 1 ≤ n) :
    ∀ tps, (∀ g ∈ tps, ∃ p, g = [p]) →
      expandBatch n tps = Except.ok (tps.map (fun g => List.replicate n (g.headD ""))) := by
  intro tps
  induction tps with
  | nil => intro _; rfl
  | cons g gs ih =>
    intro h
    obtain ⟨p, hp⟩ := h g (by simp)
    subst hp
    have hgs := ih (fun x hx => h x (by simp [hx]))
    simp only [expandBatch, hgs]
    have : innerLoop (n - 1) [p] = List.replicate n p := by
      rw [innerLoop_cons]
      simp only [List.nil_append, ← List.replicate_succ]
      congr 1
      omega
    simp [this]

lemma expandHeap_at (n : Nat) :
    ∀ (ids : List Nat) (h : Nat → List String) (k : Nat), ids.Nodup →
      expandHeap n ids h k = if k ∈ ids then innerLoop (n - 1) (h k) else h k := by
  intro ids
  induction ids with
  | nil => intro h k _; simp [expandHeap]
  | cons i rest ih =>
    intro h k hnd
    rw [List.nodup_cons] at hnd
    have step : expandHeap n (i :: rest) h =
        expandHeap n rest (updateAt h i (innerLoop (n - 1) (h i))) := rfl
    rw [step, ih _ k hnd.2]
    by_cases hk : k ∈ rest
    · have hki : k ≠ i := fun he => hnd.1 (he ▸ hk)
      simp [hk, updateAt, hki, List.mem_cons]
    · by_cases hki : k = i
      · subst hki
        simp [hk, updateAt]
      · simp [hk, hki, updateAt, List.mem_cons]

lemma cd_fst (env : Env) (od tp pf : String) (dr : Bool) (s : S) :
    (create_directory env od tp pf dr s).1 =
      od ++ "/" ++ (fmtNow (env.nowIso s.tick) ++ "_" ++ stemOf tp ++ "_" ++ pf) := by
  unfold create_directory
  cases h1 : pexists env s od <;> simp [mkdirS, h1]

lemma cd_uuid (env : Env) (od tp pf : String) (dr : Bool) (s : S) :
    (create_directory env od tp pf dr s).2.uuidCtr = s.uuidCtr := by
  unfold create_directory
  cases h1 : pexists env s od <;> simp only [h1, if_true, if_false, Bool.false_eq_true] <;>
    split <;> simp [mkdirS]

lemma cd_tick (env : Env) (od tp pf : String) (dr : Bool) (s : S) :
    (create_directory env od tp pf dr s).2.tick = s.tick + 1 := by
  unfold create_directory
  cases h1 : pexists env s od <;> simp only [h1, if_true, if_false, Bool.false_eq_true] <;>
    split <;> simp [mkdirS]

lemma cd_events (env : Env) (od tp pf : String) (dr : Bool) (s : S) :
    ∃ pre, (create_directory env od tp pf dr s).2.events = s.events ++ pre ∧
      ∀ e ∈ pre, isMkdirCopy e = true := by
  unfold create_directory
  cases h1 : pexists env s od <;> simp only [h1, if_true, if_false, Bool.false_eq_true] <;> split
  · refine ⟨[Event.mkdir od,
      Event.mkdir (od ++ "/" ++ (fmtNow (env.nowIso s.tick) ++ "_" ++ stemOf tp ++ "_" ++ pf))],
      ?_, ?_⟩
    · simp [mkdirS]
    · intro e he
      rcases (by simpa using he : _ ∨ _) with h | h <;> subst h <;> rfl
  · exact ⟨[Event.mkdir od], by simp [mkdirS], by intro e he; simp at he; subst he; rfl⟩
  · refine ⟨[Event.mkdir (od ++ "/" ++
      (fmtNow (env.nowIso s.tick) ++ "_" ++ stemOf tp ++ "_" ++ pf))], ?_, ?_⟩
    · simp [mkdirS]
    · intro e he; simp at he; subst he; rfl
  · exact ⟨[], by simp, by intro e he; simp at he⟩

lemma spec_leaf_clean {s s' : S} {t : List Event} (rid : Nat) (r : Except Err Unit)
    (hev : s'.events = s.events ++ t) (hclean : ∀ e ∈ t, isMkdirCopy e = true)
    (huu : s'.uuidCtr = s.uuidCtr) (hr : ∃ e, r = Except.error e) :
    s'.events = s.events ++ t ∧ TailOK rid s.uuidCtr s'.uuidCtr t ∧
    s.uuidCtr ≤ s'.uuidCtr ∧
    (∀ u, r = Except.ok u → t.countP isLaunch = 1) ∧
    (∀ e, r = Except.error e → t.countP isLaunch = 0) := by
  obtain ⟨e, he⟩ := hr
  refine ⟨hev, ?_, by omega, ?_, ?_⟩
  · rw [huu]
    exact TailOK_of_clean rid s.uuidCtr s.uuidCtr hclean
  · intro u hu
    rw [he] at hu
    exact absurd hu (by simp)
  · intro e' _
    exact (clean_basics t hclean).2.2.2.1

lemma clean_append {t₁ t₂ : List Event} (h₁ : ∀ e ∈ t₁, isMkdirCopy e = true)
    (h₂ : ∀ e ∈ t₂, isMkdirCopy e = true) : ∀ e ∈ t₁ ++ t₂, isMkdirCopy e = true := by
  intro e he
  rw [List.mem_append] at he
  rcases he with h | h
  · exact h₁ e h
  · exact h₂ e h

lemma clean_copy (cp dst : String) :
    ∀ e ∈ [Event.copyfile cp dst], isMkdirCopy e = true := by
  intro e he
  simp at he
  subst he
  rfl

lemma run_simulation_spec (env : Env) (t0 : String) (gr : List String)
    (cp od pf : String) (w si rid : Nat) (s : S) :
    ∃ t, (run_simulation env (t0 :: gr) cp od pf w si rid s).2.events = s.events ++ t ∧
      TailOK rid s.uuidCtr (run_simulation env (t0 :: gr) cp od pf w si rid s).2.uuidCtr t ∧
      s.uuidCtr ≤ (run_simulation env (t0 :: gr) cp od pf w si rid s).2.uuidCtr ∧
      (∀ u, (run_simulation env (t0 :: gr) cp od pf w si rid s).1 = Except.ok u →
        t.countP isLaunch = 1) ∧
      (∀ e, (run_simulation env (t0 :: gr) cp od pf w si rid s).1 = Except.error e →
        t.countP isLaunch = 0) := by
  obtain ⟨pre0, hpre0, hclean0⟩ := cd_events env od t0 pf false s
  have huu0 := cd_uuid env od t0 pf false s
  simp only [run_simulation]
  set RP := (create_directory env od t0 pf false s).1 with hRP
  set CD2 := (create_directory env od t0 pf false s).2 with hCD2
  cases hcopy : env.copyfileOk cp (RP ++ "/champsim_config.json")
  · rw [if_neg Bool.false_ne_true]
    exact ⟨pre0, spec_leaf_clean rid _ hpre0 hclean0 huu0 ⟨_, rfl⟩⟩
  · rw [if_pos rfl]
    have hev2 : (pushEvent CD2 (Event.copyfile cp (RP ++ "/champsim_config.json"))).events =
        s.events ++ (pre0 ++ [Event.copyfile cp (RP ++ "/champsim_config.json")]) := by
      simp [pushEvent, hpre0]
    have huu2 : (pushEvent CD2 (Event.copyfile cp (RP ++ "/champsim_config.json"))).uuidCtr =
        s.uuidCtr := by
      simp [pushEvent, huu0]
    have hclean1 : ∀ e ∈ pre0 ++ [Event.copyfile cp (RP ++ "/champsim_config.json")],
        isMkdirCopy e = true := clean_append hclean0 (clean_copy _ _)
    cases hck : checksumList env (t0 :: gr) with
    | error e1 =>
      simp only [hck]
      exact ⟨_, spec_leaf_clean rid _ hev2 hclean1 huu2 ⟨_, rfl⟩⟩
    | ok cs =>
      simp only [hck]
      cases hsha : runChecked ["sha256sum", cp] (env.sha256 cp) with
      | error e2 =>
        simp only [hsha]
        exact ⟨_, spec_leaf_clean rid _ hev2 hclean1 huu2 ⟨_, rfl⟩⟩
      | ok cc =>
        simp only [hsha]
        cases hgit : runChecked ["git", "rev-parse", "HEAD"] env.git with
        | error e3 =>
          simp only [hgit]
          exact ⟨_, spec_leaf_clean rid _ hev2 hclean1 huu2 ⟨_, rfl⟩⟩
        | ok gc =>
          simp only [hgit]
          cases hw1 : env.openWriteOk (RP ++ "/run_metadata.json")
          · rw [if_neg Bool.false_ne_true]
            exact ⟨_, spec_leaf_clean rid _ hev2 hclean1 huu2 ⟨_, rfl⟩⟩
          · rw [if_pos rfl]
            set S2 := pushEvent CD2 (Event.copyfile cp (RP ++ "/champsim_config.json")) with hS2
            set CMD := [resolveP env "bin/champsim",
                "--warmup-instructions", toString w,
                "--simulation-instructions", toString si,
                "--json", resolveP env (RP ++ "/simulation_results.json")]
                ++ (t0 :: gr).map (resolveP env) with hCMD
            set MD := mdOf (t0 :: gr) cs gc pf rid S2.uuidCtr (env.nowIso S2.tick) CMD
              with hMD
            have hrid : MD.run_id = rid := by rw [hMD]; rfl
            have hsim : MD.sim_id = s.uuidCtr := by rw [hMD]; exact huu2
            have hev4 : (pushEvent { S2 with uuidCtr := S2.uuidCtr + 1, tick := S2.tick + 1 }
                (Event.writeMetadata RP MD)).events =
                s.events ++ ((pre0 ++ [Event.copyfile cp (RP ++ "/champsim_config.json")])
                  ++ [Event.writeMetadata RP MD]) := by
              simp [pushEvent, hev2]
            have huu4 : (pushEvent { S2 with uuidCtr := S2.uuidCtr + 1, tick := S2.tick + 1 }
                (Event.writeMetadata RP MD)).uuidCtr = s.uuidCtr + 1 := by
              simp [pushEvent, huu2]
            have htail4 : TailOK rid s.uuidCtr (s.uuidCtr + 1)
                ((pre0 ++ [Event.copyfile cp (RP ++ "/champsim_config.json")])
                  ++ [Event.writeMetadata RP MD]) :=
              TailOK_append (TailOK_of_clean rid s.uuidCtr s.uuidCtr hclean1)
                (TailOK_wm_single rid s.uuidCtr (s.uuidCtr + 1) RP MD hrid hsim (by omega))
                (le_refl _) (by omega)
            have hcount4 : ((pre0 ++ [Event.copyfile cp (RP ++ "/champsim_config.json")])
                ++ [Event.writeMetadata RP MD]).countP isLaunch = 0 := by
              rw [List.countP_append, (clean_basics _ hclean1).2.2.2.1]
              rfl
            cases hw2 : env.openWriteOk (RP ++ "/sim_output.log")
            · rw [if_neg Bool.false_ne_true]
              refine ⟨_, hev4, ?_, ?_, ?_, ?_⟩
              · rw [huu4]; exact htail4
              · rw [huu4]; omega
              · intro u hu; exact absurd hu (by simp)
              · intro e _; exact hcount4
            · rw [if_pos rfl]
              cases hpo : env.popenOk
              · rw [if_neg Bool.false_ne_true]
                refine ⟨_, hev4, ?_, ?_, ?_, ?_⟩
                · rw [huu4]; exact htail4
                · rw [huu4]; omega
                · intro u hu; exact absurd hu (by simp)
                · intro e _; exact hcount4
              · rw [if_pos rfl]
                refine ⟨(pre0 ++ [Event.copyfile cp (RP ++ "/champsim_config.json")])
                  ++ [Event.writeMetadata RP MD, Event.launch RP CMD], ?_, ?_, ?_, ?_, ?_⟩
                · simp [pushEvent, hev2]
                · have huu5 : (pushEvent (pushEvent
                      { S2 with uuidCtr := S2.uuidCtr + 1, tick := S2.tick + 1 }
                      (Event.writeMetadata RP MD)) (Event.launch RP CMD)).uuidCtr =
                      s.uuidCtr + 1 := by simp [pushEvent, huu2]
                  rw [huu5]
                  exact TailOK_append (TailOK_of_clean rid s.uuidCtr s.uuidCtr hclean1)
                    (TailOK_wm_launch rid s.uuidCtr (s.uuidCtr + 1) RP MD CMD hrid hsim
                      (by omega)) (le_refl _) (by omega)
                · simp [pushEvent, huu2]
                · intro u _
                  exact countP_isLaunch_wm_launch _ hclean1 RP MD CMD
                · intro e he; exact absurd he (by simp)

lemma run_simulation_spec_nil (env : Env) (cp od pf : String) (w si rid : Nat) (s : S) :
    run_simulation env [] cp od pf w si rid s = (Except.error Err.indexError, s) := rfl

lemma simLoop_spec (env : Env) (cp od pf : String) (w si rid : Nat) :
    ∀ (groups : List (List String)) (s : S),
      ∃ t, (simLoop env cp od pf w si rid groups s).2.events = s.events ++ t ∧
        TailOK rid s.uuidCtr (simLoop env cp od pf w si rid groups s).2.uuidCtr t ∧
        s.uuidCtr ≤ (simLoop env cp od pf w si rid groups s).2.uuidCtr ∧
        (∀ u, (simLoop env cp od pf w si rid groups s).1 = Except.ok u →
          t.countP isLaunch = groups.length) := by
  intro groups
  induction groups with
  | nil =>
    intro s
    exact ⟨[], by simp [simLoop], TailOK_nil rid _ _, le_refl _, by intro u _; rfl⟩
  | cons g rest ih =>
    intro s
    cases g with
    | nil =>
      refine ⟨[], ?_, TailOK_nil rid _ _, le_refl _, ?_⟩
      · simp [simLoop, run_simulation]
      · intro u hu
        simp [simLoop, run_simulation] at hu
    | cons t0 gr =>
      obtain ⟨t1, hev1, htail1, hle1, hok1, herr1⟩ :=
        run_simulation_spec env t0 gr cp od pf w si rid s
      rcases hrs : run_simulation env (t0 :: gr) cp od pf w si rid s with ⟨r, s'⟩
      rw [hrs] at hev1 htail1 hle1 hok1 herr1
      dsimp only at hev1 htail1 hle1 hok1 herr1
      cases r with
      | error e =>
        refine ⟨t1, ?_, ?_, ?_, ?_⟩
        · simp only [simLoop, hrs]
          exact hev1
        · simp only [simLoop, hrs]
          exact htail1
        · simp only [simLoop, hrs]
          exact hle1
        · intro u hu
          simp only [simLoop, hrs] at hu
          exact absurd hu (by simp)
      | ok u0 =>
        obtain ⟨t2, hev2, htail2, hle2, hok2⟩ := ih s'
        refine ⟨t1 ++ t2, ?_, ?_, ?_, ?_⟩
        · simp only [simLoop, hrs]
          rw [hev2, hev1, List.append_assoc]
        · simp only [simLoop, hrs]
          exact TailOK_append htail1 htail2 hle1 hle2
        · simp only [simLoop, hrs]
          omega
        · intro u hu
          simp only [simLoop, hrs] at hu
          rw [List.countP_append, hok1 u0 rfl, hok2 u hu]
          simp only [List.length_cons]
          omega

lemma buildPhase_skip (env : Env) (args : Args) (cp : String) (s : S)
    (h : args.skip_make = true) :
    buildPhase env args cp s = (Except.ok (), s) := by
  simp [buildPhase, h]

lemma buildPhase_cfgfail (env : Env) (args : Args) (cp : String) (s : S)
    (h : args.skip_make = false) (hc : env.configure.exitCode ≠ 0) :
    buildPhase env args cp s =
      (Except.error (Err.calledProcessError ["./config.sh", resolveP env cp]
        env.configure.stdout env.configure.stderr), pushEvent s Event.configure) := by
  simp [buildPhase, h, hc]

lemma buildPhase_makefail (env : Env) (args : Args) (cp : String) (s : S)
    (h : args.skip_make = false) (hc : env.configure.exitCode = 0)
    (hm : env.make.exitCode ≠ 0) :
    buildPhase env args cp s =
      (Except.error (Err.calledProcessError ["make", "-j", "28"]
        env.make.stdout env.make.stderr),
       pushEvent (pushEvent s Event.configure) Event.make) := by
  simp [buildPhase, h, hc, hm]

lemma buildPhase_ok_both (env : Env) (args : Args) (cp : String) (s : S)
    (h : args.skip_make = false) (hc : env.configure.exitCode = 0)
    (hm : env.make.exitCode = 0) :
    buildPhase env args cp s =
      (Except.ok (), pushEvent (pushEvent s Event.configure) Event.make) := by
  simp [buildPhase, h, hc, hm]

lemma buildPhase_events (env : Env) (args : Args) (cp : String) (s : S) :
    ∃ tb, (buildPhase env args cp s).2.events = s.events ++ tb ∧
      (buildPhase env args cp s).2.uuidCtr = s.uuidCtr ∧
      (buildPhase env args cp s).2.tick = s.tick ∧
      (buildPhase env args cp s).2.fs = s.fs ∧
      (∀ e ∈ tb, e = Event.configure ∨ e = Event.make) ∧
      (args.skip_make = true → tb = []) ∧
      (args.skip_make = false → (buildPhase env args cp s).1 = Except.ok () →
        Event.configure ∈ tb) ∧
      ((buildPhase env args cp s).1 = Except.ok () →
        (args.skip_make = true ∨ (env.configure.exitCode = 0 ∧ env.make.exitCode = 0))) := by
  cases hsk : args.skip_make
  · by_cases hc : env.configure.exitCode = 0
    · by_cases hm : env.make.exitCode = 0
      · rw [buildPhase_ok_both env args cp s hsk hc hm]
        refine ⟨[Event.configure, Event.make], by simp [pushEvent], by simp [pushEvent],
          by simp [pushEvent], by simp [pushEvent], ?_, by simp [hsk], by simp, ?_⟩
        · intro e he
          simp at he
          tauto
        · intro _
          exact Or.inr ⟨hc, hm⟩
      · rw [buildPhase_makefail env args cp s hsk hc hm]
        refine ⟨[Event.configure, Event.make], by simp [pushEvent], by simp [pushEvent],
          by simp [pushEvent], by simp [pushEvent], ?_, by simp [hsk], ?_, by simp⟩
        · intro e he
          simp at he
          tauto
        · intro _ hok
          exact absurd hok (by simp)
    · rw [buildPhase_cfgfail env args cp s hsk hc]
      refine ⟨[Event.configure], by simp [pushEvent], by simp [pushEvent],
        by simp [pushEvent], by simp [pushEvent], ?_, by simp [hsk], ?_, by simp⟩
      · intro e he
        simp at he
        tauto
      · intro _ hok
        exact absurd hok (by simp)
  · rw [buildPhase_skip env args cp s hsk]
    exact ⟨[], by simp, rfl, rfl, rfl, by simp, by simp, by simp [hsk], by simp [hsk]⟩

/-- Full characterisation of one mainFn outcome (result r, final state s', event
suffix t), bundling every fact the claims need: (1) the log grows by t, (2)
every launch is preceded by a metadata write into the same directory, (3) all
metadata records carry the invocation's run id, (4) simulation ids are strictly
increasing hence pairwise distinct, (5) on success the last event removes the
temp directory, (6) on failure no rmtree happens, (7) on success there is one
launch per trace group, (8) configure/make events only occur with skip_make
unset, (9) a successful non-skipped run did configure, (10) a failing configure
aborts with its CalledProcessError and zero launches, (11) likewise make. -/
def MainConj (env : Env) (args : Args) (s₀ : S) (r : Except Err Unit) (s' : S)
    (t : List Event) : Prop :=
  s'.events = s₀.events ++ t ∧
  (∀ seen, covered t seen = true) ∧
  (∀ k ∈ runIds t, k = s₀.uuidCtr) ∧
  (simIds t).Pairwise (· < ·) ∧
  (r = Except.ok () → t.getLast? = some (Event.rmtree ("temp_" ++ toString s₀.uuidCtr))) ∧
  (∀ e, r = Except.error e → t.countP isRmtree = 0) ∧
  (r = Except.ok () → ∀ tps, traceBatch env args = Except.ok tps →
    t.countP isLaunch = tps.length) ∧
  ((Event.configure ∈ t ∨ Event.make ∈ t) → args.skip_make = false) ∧
  (r = Except.ok () → args.skip_make = false → Event.configure ∈ t) ∧
  (args.skip_make = false → env.configure.exitCode ≠ 0 →
    (∃ e, r = Except.error e) ∧ t.countP isLaunch = 0 ∧
    (Event.configure ∈ t → r = Except.error (Err.calledProcessError
      ["./config.sh", resolveP env ("temp_" ++ toString s₀.uuidCtr ++ "/champsim_config.json")]
      env.configure.stdout env.configure.stderr))) ∧
  (args.skip_make = false → env.configure.exitCode = 0 → env.make.exitCode ≠ 0 →
    (∃ e, r = Except.error e) ∧ t.countP isLaunch = 0 ∧
    (Event.make ∈ t → r = Except.error (Err.calledProcessError ["make", "-j", "28"]
      env.make.stdout env.make.stderr)))

lemma mainconj_clean (env : Env) (args : Args) (s₀ : S) (r : Except Err Unit) (s' : S)
    (t : List Event) (hev : s'.events = s₀.events ++ t)
    (hclean : ∀ e ∈ t, isMkdirCopy e = true) (herr : ∃ e, r = Except.error e) :
    MainConj env args s₀ r s' t := by
  obtain ⟨h1, h2, h3, h4, h5, h6⟩ := clean_basics t hclean
  obtain ⟨e0, he0⟩ := herr
  have hnotok : ¬ r = Except.ok () := by rw [he0]; simp
  refine ⟨hev, fun seen => covered_of_noLaunch t seen h4, by simp [h2], by simp [h1],
    fun h => absurd h hnotok, fun _ _ => h3, fun h => absurd h hnotok,
    ?_, fun h => absurd h hnotok, ?_, ?_⟩
  · intro h
    rcases h with h | h
    · exact absurd h h5
    · exact absurd h h6
  · intro _ _
    exact ⟨⟨e0, he0⟩, h4, fun h => absurd h h5⟩
  · intro _ _ _
    exact ⟨⟨e0, he0⟩, h4, fun h => absurd h h6⟩

lemma build_kinds_basics (tb : List Event)
    (h : ∀ e ∈ tb, e = Event.configure ∨ e = Event.make) :
    tb.countP isLaunch = 0 ∧ tb.countP isRmtree = 0 ∧ simIds tb = [] ∧ runIds tb = [] := by
  induction tb with
  | nil => simp [simIds, runIds]
  | cons e rest ih =>
    have he := h e (by simp)
    obtain ⟨h1, h2, h3, h4⟩ := ih (fun x hx => h x (by simp [hx]))
    rcases he with he | he <;> subst he <;>
      simp [List.countP_cons, isLaunch, isRmtree, simIds, runIds, h1, h2] at * <;>
      exact ⟨by simpa [simIds] using h3, by simpa [runIds] using h4⟩

lemma main_spec (env : Env) (args : Args) (s₀ : S) :
    ∃ t, MainConj env args s₀ (mainFn env args s₀).1 (mainFn env args s₀).2 t := by
  simp only [mainFn]
  cases htb : traceBatch env args with
  | error e =>
    exact ⟨[], mainconj_clean env args s₀ _ _ [] (by simp) (by simp) ⟨e, rfl⟩⟩
  | ok tracepaths =>
    dsimp only
    cases htemp : pexists env { s₀ with uuidCtr := s₀.uuidCtr + 1 }
        ("temp_" ++ toString s₀.uuidCtr)
    case true =>
      simp only [eq_self_iff_true, if_true]
      exact ⟨[], mainconj_clean env args s₀ _ _ [] (by simp) (by simp) ⟨_, rfl⟩⟩
    case false =>
    simp only [Bool.false_eq_true, if_false]
    cases hcopy : env.copyfileOk args.config
        ("temp_" ++ toString s₀.uuidCtr ++ "/champsim_config.json")
    case false =>
      simp only [Bool.false_eq_true, if_false]
      refine ⟨[Event.mkdir ("temp_" ++ toString s₀.uuidCtr)],
        mainconj_clean env args s₀ _ _ _ (by simp [mkdirS]) ?_ ⟨_, rfl⟩⟩
      intro e he
      simp at he
      subst he
      rfl
    case true =>
    simp only [eq_self_iff_true, if_true]
    cases tracepaths with
    | nil =>
      dsimp only
      refine ⟨[Event.mkdir ("temp_" ++ toString s₀.uuidCtr),
        Event.copyfile args.config ("temp_" ++ toString s₀.uuidCtr ++ "/champsim_config.json")],
        mainconj_clean env args s₀ _ _ _ (by simp [mkdirS, pushEvent]) ?_ ⟨_, rfl⟩⟩
      intro e he
      rcases (by simpa using he : _ ∨ _) with h | h <;> subst h <;> rfl
    | cons tp0 rest =>
      dsimp only
      by_cases hshape : tp0.length ≠ 1 ∧ tp0.length ≠ env.config.num_cores
      · rw [if_pos hshape]
        refine ⟨[Event.mkdir ("temp_" ++ toString s₀.uuidCtr),
          Event.copyfile args.config ("temp_" ++ toString s₀.uuidCtr ++ "/champsim_config.json")],
          mainconj_clean env args s₀ _ _ _ (by simp [mkdirS, pushEvent]) ?_ ⟨_, rfl⟩⟩
        intro e he
        rcases (by simpa using he : _ ∨ _) with h | h <;> subst h <;> rfl
      · rw [if_neg hshape]
        cases hexp : (if tp0.length = 1 ∧ env.config.num_cores > 1
            then expandBatch env.config.num_cores (tp0 :: rest)
            else Except.ok (tp0 :: rest)) with
        | error e2 =>
          simp only [hexp]
          refine ⟨[Event.mkdir ("temp_" ++ toString s₀.uuidCtr),
            Event.copyfile args.config ("temp_" ++ toString s₀.uuidCtr ++ "/champsim_config.json")],
            mainconj_clean env args s₀ _ _ _ (by simp [mkdirS, pushEvent]) ?_ ⟨_, rfl⟩⟩
          intro e he
          rcases (by simpa using he : _ ∨ _) with h | h <;> subst h <;> rfl
        | ok tps2 =>
          simp only [hexp]
          obtain ⟨S3, hS3⟩ : ∃ x : S, x = pushEvent
              (mkdirS { s₀ with uuidCtr := s₀.uuidCtr + 1 } ("temp_" ++ toString s₀.uuidCtr))
              (Event.copyfile args.config
                ("temp_" ++ toString s₀.uuidCtr ++ "/champsim_config.json")) := ⟨_, rfl⟩
          rw [← hS3]
          have hS3ev : S3.events = s₀.events ++
              [Event.mkdir ("temp_" ++ toString s₀.uuidCtr),
               Event.copyfile args.config
                 ("temp_" ++ toString s₀.uuidCtr ++ "/champsim_config.json")] := by
            rw [hS3]; simp [pushEvent, mkdirS]
          have hS3uu : S3.uuidCtr = s₀.uuidCtr + 1 := by
            rw [hS3]; simp [pushEvent, mkdirS]
          have hprecl : ∀ e ∈ [Event.mkdir ("temp_" ++ toString s₀.uuidCtr),
              Event.copyfile args.config
                ("temp_" ++ toString s₀.uuidCtr ++ "/champsim_config.json")],
              isMkdirCopy e = true := by
            intro e he
            rcases (by simpa using he : _ ∨ _) with h | h <;> subst h <;> rfl
          obtain ⟨tb, hbev, hbuu, hbtick, hbfs, hbkinds, hbskip, hbcfg, hbok⟩ :=
            buildPhase_events env args
              ("temp_" ++ toString s₀.uuidCtr ++ "/champsim_config.json") S3
          obtain ⟨hbL, hbR, hbS, hbI⟩ := build_kinds_basics tb hbkinds
          rcases hbp : buildPhase env args
              ("temp_" ++ toString s₀.uuidCtr ++ "/champsim_config.json") S3 with ⟨rb, s4⟩
          rw [hbp] at hbev hbuu hbtick hbfs hbcfg hbok
          dsimp only at hbev hbuu hbtick hbfs hbcfg hbok
          have hAev : S3.events ++ tb = s₀.events ++
              ([Event.mkdir ("temp_" ++ toString s₀.uuidCtr),
                Event.copyfile args.config
                  ("temp_" ++ toString s₀.uuidCtr ++ "/champsim_config.json")] ++ tb) := by
            rw [hS3ev, List.append_assoc]
          have hAL : ([Event.mkdir ("temp_" ++ toString s₀.uuidCtr),
              Event.copyfile args.config
                ("temp_" ++ toString s₀.uuidCtr ++ "/champsim_config.json")] ++ tb).countP
              isLaunch = 0 := by
            rw [List.countP_append, (clean_basics _ hprecl).2.2.2.1, hbL]
          have hAR : ([Event.mkdir ("temp_" ++ toString s₀.uuidCtr),
              Event.copyfile args.config
                ("temp_" ++ toString s₀.uuidCtr ++ "/champsim_config.json")] ++ tb).countP
              isRmtree = 0 := by
            rw [List.countP_append, (clean_basics _ hprecl).2.2.1, hbR]
          have hAS : simIds ([Event.mkdir ("temp_" ++ toString s₀.uuidCtr),
              Event.copyfile args.config
                ("temp_" ++ toString s₀.uuidCtr ++ "/champsim_config.json")] ++ tb) = [] := by
            rw [simIds_append, (clean_basics _ hprecl).1, hbS]
            rfl
          have hAI : runIds ([Event.mkdir ("temp_" ++ toString s₀.uuidCtr),
              Event.copyfile args.config
                ("temp_" ++ toString s₀.uuidCtr ++ "/champsim_config.json")] ++ tb) = [] := by
            rw [runIds_append, (clean_basics _ hprecl).2.1, hbI]
            rfl
          have hmemA : ∀ x, (x = Event.configure ∨ x = Event.make) →
              x ∈ [Event.mkdir ("temp_" ++ toString s₀.uuidCtr),
                Event.copyfile args.config
                  ("temp_" ++ toString s₀.uuidCtr ++ "/champsim_config.json")] ++ tb →
              args.skip_make = false := by
            intro x hx hmem
            cases hsk : args.skip_make
            · rfl
            · rw [List.mem_append] at hmem
              rcases hmem with hmem | hmem
              · rcases hx with hx | hx <;> subst hx <;> simp at hmem
              · rw [hbskip hsk] at hmem
                simp at hmem
          cases rb with
          | error e3 =>
            dsimp only
            refine ⟨[Event.mkdir ("temp_" ++ toString s₀.uuidCtr),
              Event.copyfile args.config
                ("temp_" ++ toString s₀.uuidCtr ++ "/champsim_config.json")] ++ tb,
              ?_, ?_, ?_, ?_, ?_, ?_, ?_, ?_, ?_, ?_, ?_⟩
            · rw [hbev]; exact hAev
            · exact fun seen => covered_of_noLaunch _ seen hAL
            · rw [hAI]; simp
            · rw [hAS]; simp
            · intro h; exact absurd h (by simp)
            · intro _ _; exact hAR
            · intro h; exact absurd h (by simp)
            · intro h; rcases h with h | h
              · exact hmemA Event.configure (Or.inl rfl) h
              · exact hmemA Event.make (Or.inr rfl) h
            · intro h; exact absurd h (by simp)
            · intro hsk hc
              have heq := buildPhase_cfgfail env args
                ("temp_" ++ toString s₀.uuidCtr ++ "/champsim_config.json") S3 hsk hc
              rw [hbp] at heq
              have h1 := congrArg Prod.fst heq
              dsimp only at h1
              exact ⟨⟨e3, rfl⟩, hAL, fun _ => h1⟩
            · intro hsk hc hm
              have heq := buildPhase_makefail env args
                ("temp_" ++ toString s₀.uuidCtr ++ "/champsim_config.json") S3 hsk hc hm
              rw [hbp] at heq
              have h1 := congrArg Prod.fst heq
              dsimp only at h1
              exact ⟨⟨e3, rfl⟩, hAL, fun _ => h1⟩
          | ok u1 =>
            cases u1
            dsimp only
            obtain ⟨tl, hlev, hltail, hlle, hlok⟩ := simLoop_spec env
              ("temp_" ++ toString s₀.uuidCtr ++ "/champsim_config.json") args.output
              (if env.config.l1d_prefetcher ≠ "no" then env.config.l1d_prefetcher
               else env.config.l2c_prefetcher) args.warmup args.sim s₀.uuidCtr tps2 s4
            rcases hlp : simLoop env
                ("temp_" ++ toString s₀.uuidCtr ++ "/champsim_config.json") args.output
                (if env.config.l1d_prefetcher ≠ "no" then env.config.l1d_prefetcher
                 else env.config.l2c_prefetcher) args.warmup args.sim s₀.uuidCtr tps2 s4
                with ⟨rl, s5⟩
            rw [hlp] at hlev hltail hlle hlok
            dsimp only at hlev hltail hlle hlok
            obtain ⟨hlcov, hlrid, hlpair, hlbnd, hlrm, hlcf, hlmk⟩ := hltail
            have hBev : s5.events = s₀.events ++
                (([Event.mkdir ("temp_" ++ toString s₀.uuidCtr),
                   Event.copyfile args.config
                     ("temp_" ++ toString s₀.uuidCtr ++ "/champsim_config.json")] ++ tb) ++ tl) := by
              rw [hlev, hbev, hAev, List.append_assoc]
            have hBcov : ∀ seen, covered
                (([Event.mkdir ("temp_" ++ toString s₀.uuidCtr),
                   Event.copyfile args.config
                     ("temp_" ++ toString s₀.uuidCtr ++ "/champsim_config.json")] ++ tb) ++ tl)
                seen = true := by
              intro seen
              rw [covered_append, covered_of_noLaunch _ seen hAL, hlcov]
              rfl
            have hBrid : ∀ k ∈ runIds
                (([Event.mkdir ("temp_" ++ toString s₀.uuidCtr),
                   Event.copyfile args.config
                     ("temp_" ++ toString s₀.uuidCtr ++ "/champsim_config.json")] ++ tb) ++ tl),
                k = s₀.uuidCtr := by
              intro k hk
              rw [runIds_append, hAI, List.nil_append] at hk
              exact hlrid k hk
            have hBsid : simIds
                (([Event.mkdir ("temp_" ++ toString s₀.uuidCtr),
                   Event.copyfile args.config
                     ("temp_" ++ toString s₀.uuidCtr ++ "/champsim_config.json")] ++ tb) ++ tl) =
                simIds tl := by
              rw [simIds_append, hAS, List.nil_append]
            have hBL : (([Event.mkdir ("temp_" ++ toString s₀.uuidCtr),
                Event.copyfile args.config
                  ("temp_" ++ toString s₀.uuidCtr ++ "/champsim_config.json")] ++ tb) ++ tl).countP
                isLaunch = tl.countP isLaunch := by
              rw [List.countP_append, hAL]
              omega
            have hBR : (([Event.mkdir ("temp_" ++ toString s₀.uuidCtr),
                Event.copyfile args.config
                  ("temp_" ++ toString s₀.uuidCtr ++ "/champsim_config.json")] ++ tb) ++ tl).countP
                isRmtree = 0 := by
              rw [List.countP_append, hAR, hlrm]
            have hBmem : ∀ x, (x = Event.configure ∨ x = Event.make) →
                x ∈ ([Event.mkdir ("temp_" ++ toString s₀.uuidCtr),
                  Event.copyfile args.config
                    ("temp_" ++ toString s₀.uuidCtr ++ "/champsim_config.json")] ++ tb) ++ tl →
                args.skip_make = false := by
              intro x hx hmem
              rw [List.mem_append] at hmem
              rcases hmem with hmem | hmem
              · exact hmemA x hx hmem
              · rcases hx with hx | hx <;> subst hx
                · exact absurd hmem hlcf
                · exact absurd hmem hlmk
            cases rl with
            | error e4 =>
              dsimp only
              refine ⟨([Event.mkdir ("temp_" ++ toString s₀.uuidCtr),
                Event.copyfile args.config
                  ("temp_" ++ toString s₀.uuidCtr ++ "/champsim_config.json")] ++ tb) ++ tl,
                hBev, hBcov, hBrid, ?_, ?_, ?_, ?_, ?_, ?_, ?_, ?_⟩
              · rw [hBsid]; exact hlpair
              · intro h; exact absurd h (by simp)
              · intro _ _; exact hBR
              · intro h; exact absurd h (by simp)
              · intro h
                rcases h with h | h
                · exact hBmem Event.configure (Or.inl rfl) h
                · exact hBmem Event.make (Or.inr rfl) h
              · intro h; exact absurd h (by simp)
              · intro hsk hc
                have heq := buildPhase_cfgfail env args
                  ("temp_" ++ toString s₀.uuidCtr ++ "/champsim_config.json") S3 hsk hc
                rw [hbp] at heq
                have h1 := congrArg Prod.fst heq
                dsimp only at h1
                exact absurd h1 (by simp)
              · intro hsk hc hm
                have heq := buildPhase_makefail env args
                  ("temp_" ++ toString s₀.uuidCtr ++ "/champsim_config.json") S3 hsk hc hm
                rw [hbp] at heq
                have h1 := congrArg Prod.fst heq
                dsimp only at h1
                exact absurd h1 (by simp)
            | ok u2 =>
              cases u2
              dsimp only
              refine ⟨(([Event.mkdir ("temp_" ++ toString s₀.uuidCtr),
                Event.copyfile args.config
                  ("temp_" ++ toString s₀.uuidCtr ++ "/champsim_config.json")] ++ tb) ++ tl) ++
                [Event.rmtree ("temp_" ++ toString s₀.uuidCtr)],
                ?_, ?_, ?_, ?_, ?_, ?_, ?_, ?_, ?_, ?_, ?_⟩
              · simp only [pushEvent]
                rw [hBev, List.append_assoc]
              · intro seen
                rw [covered_append, hBcov seen]
                rfl
              · intro k hk
                rw [runIds_append] at hk
                rcases List.mem_append.mp hk with hk | hk
                · exact hBrid k hk
                · simp [runIds] at hk
              · rw [simIds_append, hBsid]
                have hrmnil : simIds [Event.rmtree ("temp_" ++ toString s₀.uuidCtr)] = [] := rfl
                rw [hrmnil, List.append_nil]
                exact hlpair
              · intro _
                exact List.getLast?_concat _
              · intro e he
                exact absurd he (by simp)
              · intro _ tps htps
                rw [List.countP_append, hBL]
                have hrm0 : ([Event.rmtree ("temp_" ++ toString s₀.uuidCtr)]).countP
                    isLaunch = 0 := rfl
                rw [hrm0, Nat.add_zero, hlok () rfl]
                have htps2 : tps = tp0 :: rest := by
                  rw [htb] at htps
                  injection htps with h
                  exact h.symm
                subst htps2
                by_cases hc1 : tp0.length = 1 ∧ env.config.num_cores > 1
                · rw [if_pos hc1] at hexp
                  exact expandBatch_length env.config.num_cores (tp0 :: rest) tps2 hexp
                · rw [if_neg hc1] at hexp
                  have hq : tp0 :: rest = tps2 := by
                    simpa using hexp
                  rw [← hq]
              · intro h
                have h2 : Event.configure ∈ (([Event.mkdir ("temp_" ++ toString s₀.uuidCtr),
                    Event.copyfile args.config
                      ("temp_" ++ toString s₀.uuidCtr ++ "/champsim_config.json")] ++ tb) ++ tl) ∨
                    Event.make ∈ (([Event.mkdir ("temp_" ++ toString s₀.uuidCtr),
                    Event.copyfile args.config
                      ("temp_" ++ toString s₀.uuidCtr ++ "/champsim_config.json")] ++ tb) ++ tl) := by
                  rcases h with h | h
                  · rcases List.mem_append.mp h with h1 | h1
                    · exact Or.inl h1
                    · simp at h1
                  · rcases List.mem_append.mp h with h1 | h1
                    · exact Or.inr h1
                    · simp at h1
                rcases h2 with h2 | h2
                · exact hBmem Event.configure (Or.inl rfl) h2
                · exact hBmem Event.make (Or.inr rfl) h2
              · intro _ hsk
                have hcfg := hbcfg hsk rfl
                rw [List.mem_append]
                exact Or.inl (List.mem_append.mpr (Or.inl (List.mem_append.mpr (Or.inr hcfg))))
              · intro hsk hc
                have heq := buildPhase_cfgfail env args
                  ("temp_" ++ toString s₀.uuidCtr ++ "/champsim_config.json") S3 hsk hc
                rw [hbp] at heq
                have h1 := congrArg Prod.fst heq
                dsimp only at h1
                exact absurd h1 (by simp)
              · intro hsk hc hm
                have heq := buildPhase_makefail env args
                  ("temp_" ++ toString s₀.uuidCtr ++ "/champsim_config.json") S3 hsk hc hm
                rw [hbp] at heq
                have h1 := congrArg Prod.fst heq
                dsimp only at h1
                exact absurd h1 (by simp)

deriving instance DecidableEq for Except

lemma append_slash_ne (od x : String) : od ++ "/" ++ x ≠ od := by
  intro h
  have h2 := congrArg String.length h
  rw [String.length_append, String.length_append] at h2
  have h3 : ("/" : String).length = 1 := rfl
  omega

lemma pexists_mono (env : Env) {s : S} (p q : String)
    (h : pexists env s p = true) : pexists env (mkdirS s q) p = true := by
  simp only [pexists, mkdirS, Bool.or_eq_true] at h ⊢
  rcases h with h | h
  · exact Or.inl h
  · right
    simp only [List.contains_cons, Bool.or_eq_true]
    exact Or.inr h

lemma getLast?_append_right {t : List Event} {x : Event} (h : t.getLast? = some x) :
    ∀ l : List Event, (l ++ t).getLast? = some x := by
  intro l
  induction l with
  | nil => exact h
  | cons a l ih =>
    have hne : l ++ t ≠ [] := by
      intro hc
      rcases List.append_eq_nil.mp hc with ⟨_, h2⟩
      subst h2
      simp at h
    cases hc : l ++ t with
    | nil => exact absurd hc hne
    | cons b u =>
      rw [List.cons_append, hc, List.getLast?_cons_cons, ← hc, ih]

lemma get_map_aux {α β : Type} (f : α → β) :
    ∀ (l : List α) (i : Nat) (h : i < (l.map f).length) (h' : i < l.length),
      (l.map f).get ⟨i, h⟩ = f (l.get ⟨i, h'⟩) := by
  intro l
  induction l with
  | nil => intro i _ h'; simp at h'
  | cons a l ih =>
    intro i h h'
    cases i with
    | zero => rfl
    | succ i => exact ih i (by simpa using h) (by simpa using h')

lemma getD_mem_of_lt {α : Type} (d : α) :
    ∀ (l : List α) (i : Nat), i < l.length → l.getD i d ∈ l := by
  intro l
  induction l with
  | nil => intro i h; simp at h
  | cons a l ih =>
    intro i h
    cases i with
    | zero => simp [List.getD]
    | succ i =>
      have hm := ih i (by simpa using h)
      right
      simpa [List.getD] using hm

lemma pyPath_singleton (c : Char) : pyPath (String.singleton c) = String.singleton c := rfl

/-- Environment in which every external action succeeds; the clock stream
yields the tick-indexed timestamp Tn+00:00, the tracelist file holds two
single-trace lines, and the configuration selects the L2C prefetcher with one
core. -/
def happyEnv : Env :=
  { initExists := fun _ => false
    nowIso := fun n => "T" ++ toString n ++ "+00:00"
    cwd := "/w"
    sha1 := fun _ => { exitCode := 0, stdout := "aa  t", stderr := "" }
    sha256 := fun _ => { exitCode := 0, stdout := "bb  c", stderr := "" }
    git := { exitCode := 0, stdout := "deadbeef", stderr := "" }
    configure := { exitCode := 0, stdout := "", stderr := "" }
    make := { exitCode := 0, stdout := "", stderr := "" }
    copyfileOk := fun _ _ => true
    openWriteOk := fun _ => true
    popenOk := true
    config := { l1d_prefetcher := "no", l2c_prefetcher := "pf", num_cores := 1 }
    fileLines := fun _ => ["t1", "t2"] }

/-- A standard invocation: tracelist file, default flags. -/
def argsH : Args :=
  { config := "cfg.json", quiet := false, skip_make := false, output := "out",
    warmup := 1, sim := 2, trace := none, tracelist := some "list.txt" }

/-- happyEnv with the sha1sum of trace t1 failing (exit code 1). -/
def env1 : Env :=
  { happyEnv with sha1 := fun t =>
      if t = "t1" then { exitCode := 1, stdout := "", stderr := "" }
      else { exitCode := 0, stdout := "aa  t", stderr := "" } }

/-- The final state of run_simulation on group [t1] under env1. -/
def st1 : S :=
  { fs := ["out/T0Z_t1_pf", "out"], tick := 1, uuidCtr := 0,
    events := [Event.mkdir "out", Event.mkdir "out/T0Z_t1_pf",
               Event.copyfile "cfg" "out/T0Z_t1_pf/champsim_config.json"] }

/-- happyEnv in which the output root and the computed run directory for the
first allocation already exist on disk. -/
def envC2 : Env :=
  { happyEnv with initExists := fun p => p == "out" || p == "out/T0Z_t1_pf" }

/-- happyEnv with a failing ./config.sh. -/
def envB : Env :=
  { happyEnv with configure := { exitCode := 1, stdout := "so", stderr := "se" } }

/-- happyEnv reconfigured for two cores. -/
def env4 : Env :=
  { happyEnv with config :=
      { l1d_prefetcher := "no", l2c_prefetcher := "pf", num_cores := 2 } }

/-- Invocation passing two --trace arguments ab and abc (no tracelist). -/
def args4 : Args := { argsH with tracelist := none, trace := some ["ab", "abc"] }

/-- Invocation passing the single --trace argument abc. -/
def argsW4 : Args := { argsH with tracelist := none, trace := some ["abc"] }

/-- Invocation passing the single --trace argument ab. -/
def args10 : Args := { argsH with tracelist := none, trace := some ["ab"] }

/-- happyEnv with a fixed wall-clock timestamp. -/
def envC8 : Env :=
  { happyEnv with nowIso := fun _ => "2024-01-02T03:04:05+00:00" }

/-- happyEnv with one tracelist line and every sha1sum failing. -/
def env9 : Env :=
  { happyEnv with
      sha1 := fun _ => { exitCode := 1, stdout := "", stderr := "" }
      fileLines := fun _ => ["t1"] }

/-- happyEnv with one tracelist line, all external actions succeeding. -/
def envH1 : Env := { happyEnv with fileLines := fun _ => ["t1"] }

/-- happyEnv in which the built simulator binary bin/champsim already exists. -/
def envArt : Env := { happyEnv with initExists := fun p => p == "bin/champsim" }

/-- Claim C1 (corrected).  The original claim said a per-group local failure
(checksum IOError, provenance write failure, launch failure) causes only that
group to be skipped and the loop continues.  In the code the per-group loop has
no exception handling, so the amended claim holds instead: when run_simulation
raises any error on one group, the whole remaining loop is abandoned with that
error and state — none of the remaining groups is processed (no directory,
no provenance record, no launch for them). -/
theorem claim_c1 (env : Env) (g : List String) (rest : List (List String))
    (cp od pf : String) (w si rid : Nat) (s s' : S) (e : Err)
    (h : run_simulation env g cp od pf w si rid s = (Except.error e, s')) :
    simLoop env cp od pf w si rid (g :: rest) s = (Except.error e, s') := by
  simp only [simLoop, h]

/-- Witness for C1: under env1 the sha1sum of t1 fails, run_simulation on group
[t1] raises CalledProcessError, and the loop over [[t1], [t2]] stops with that
same error and state: group [t2] is never reached. -/
theorem claim_c1_witness :
    run_simulation env1 ["t1"] "cfg" "out" "pf" 1 2 0 initS =
      (Except.error (Err.calledProcessError ["sha1sum", "t1"] "" ""), st1) ∧
    simLoop env1 "cfg" "out" "pf" 1 2 0 [["t1"], ["t2"]] initS =
      (Except.error (Err.calledProcessError ["sha1sum", "t1"] "" ""), st1) :=
  have h : run_simulation env1 ["t1"] "cfg" "out" "pf" 1 2 0 initS =
      (Except.error (Err.calledProcessError ["sha1sum", "t1"] "" ""), st1) := by decide
  ⟨h, claim_c1 env1 ["t1"] [["t2"]] "cfg" "out" "pf" 1 2 0 initS st1
    (Err.calledProcessError ["sha1sum", "t1"] "" "") h⟩

/-- Counterexample to C1 as stated: a two-group batch in which the first
group's checksum fails.  main aborts with the CalledProcessError and zero
simulator processes are launched, so the remaining group [t2] is not
processed, contradicting the claim that every remaining group is still
processed. -/
theorem claim_c1_counterexample :
    (mainFn env1 argsH initS).1 =
      Except.error (Err.calledProcessError ["sha1sum", "t1"] "" "") ∧
    (mainFn env1 argsH initS).2.events.countP isLaunch = 0 := by
  constructor
  · decide
  · decide

/-- Claim C2 (corrected).  The original claim said an already-existing computed
path makes allocation fail with a fatal DirectoryCollisionError.  The code
raises nothing: when the computed results path already exists,
create_directory silently returns that path, creates nothing new for it, and
continues — the amended claim.  (No disambiguator is appended either: the
returned path is exactly the computed one.) -/
theorem claim_c2 (env : Env) (od tp pf : String) (s : S)
    (hex : pexists env s
      (od ++ "/" ++ (fmtNow (env.nowIso s.tick) ++ "_" ++ stemOf tp ++ "_" ++ pf)) = true) :
    (create_directory env od tp pf false s).1 =
      od ++ "/" ++ (fmtNow (env.nowIso s.tick) ++ "_" ++ stemOf tp ++ "_" ++ pf) ∧
    ((create_directory env od tp pf false s).2.events = s.events ∨
     (create_directory env od tp pf false s).2.events = s.events ++ [Event.mkdir od]) ∧
    (create_directory env od tp pf false s).2.fs.contains
      (od ++ "/" ++ (fmtNow (env.nowIso s.tick) ++ "_" ++ stemOf tp ++ "_" ++ pf)) =
      s.fs.contains
        (od ++ "/" ++ (fmtNow (env.nowIso s.tick) ++ "_" ++ stemOf tp ++ "_" ++ pf)) := by
  have hne : od ++ "/" ++ (fmtNow (env.nowIso s.tick) ++ "_" ++ stemOf tp ++ "_" ++ pf) ≠ od :=
    append_slash_ne od _
  unfold create_directory
  cases h1 : pexists env s od
  case true =>
    simp only [eq_self_iff_true, if_true]
    have hx : pexists env { s with tick := s.tick + 1 }
        (od ++ "/" ++ (fmtNow (env.nowIso s.tick) ++ "_" ++ stemOf tp ++ "_" ++ pf)) = true := hex
    rw [hx]
    simp
  case false =>
    simp only [Bool.false_eq_true, if_false]
    have hx : pexists env { mkdirS s od with tick := (mkdirS s od).tick + 1 }
        (od ++ "/" ++ (fmtNow (env.nowIso (mkdirS s od).tick) ++ "_" ++ stemOf tp ++ "_" ++ pf)) =
        true := pexists_mono env _ od hex
    rw [hx]
    refine ⟨rfl, Or.inr rfl, ?_⟩
    have hb : ((od ++ "/" ++ (fmtNow (env.nowIso s.tick) ++ "_" ++ stemOf tp ++ "_" ++ pf))
        == od) = false := beq_eq_false_iff_ne.mpr hne
    show (od :: s.fs).contains
      (od ++ "/" ++ (fmtNow (env.nowIso s.tick) ++ "_" ++ stemOf tp ++ "_" ++ pf)) =
      s.fs.contains (od ++ "/" ++ (fmtNow (env.nowIso s.tick) ++ "_" ++ stemOf tp ++ "_" ++ pf))
    simp [List.contains_cons, hb]
    intro hcontra
    exact absurd hcontra hne

/-- Witness for C2: under envC2 the computed path out/T0Z_t1_pf already exists;
create_directory returns exactly that path, adds no event, and leaves the
filesystem view of that path unchanged. -/
theorem claim_c2_witness :
    (create_directory envC2 "out" "t1" "pf" false initS).1 =
      "out" ++ "/" ++ (fmtNow (envC2.nowIso initS.tick) ++ "_" ++ stemOf "t1" ++ "_" ++ "pf") ∧
    ((create_directory envC2 "out" "t1" "pf" false initS).2.events = initS.events ∨
     (create_directory envC2 "out" "t1" "pf" false initS).2.events =
       initS.events ++ [Event.mkdir "out"]) ∧
    (create_directory envC2 "out" "t1" "pf" false initS).2.fs.contains
      ("out" ++ "/" ++ (fmtNow (envC2.nowIso initS.tick) ++ "_" ++ stemOf "t1" ++ "_" ++ "pf")) =
      initS.fs.contains
        ("out" ++ "/" ++ (fmtNow (envC2.nowIso initS.tick) ++ "_" ++ stemOf "t1" ++ "_" ++ "pf")) :=
  claim_c2 envC2 "out" "t1" "pf" initS (by decide)

/-- Counterexample to C2 as stated: with the computed path pre-existing,
create_directory returns normally with the existing path and an unchanged
event log — no DirectoryCollisionError (the embedded error type has no such
case because the code raises nothing here), i.e. the directory is silently
reused. -/
theorem claim_c2_counterexample :
    create_directory envC2 "out" "t1" "pf" false initS =
      ("out/T0Z_t1_pf", { fs := [], tick := 1, uuidCtr := 0, events := [] }) := by
  decide

/-- Claim C5 (corrected).  The value part of the claim holds: for a batch of
singleton groups and coreCount > 1, every expanded group is coreCount copies of
the group's single path.  The purity part is false: the expansion loop mutates
the existing group list objects in place (tracepaths[i].append), which the
heap-level model expandHeap makes explicit — after expansion every original
group object holds the expanded contents, so the unexpanded batch no longer
exists. -/
theorem claim_c5 (n : Nat) (tps : List (List String)) (hn : 1 < n)
    (hs : ∀ g ∈ tps, ∃ p, g = [p]) :
    expandBatch n tps = Except.ok (tps.map (fun g => List.replicate n (g.headD ""))) ∧
    ∀ i < tps.length,
      expandHeap n (List.range tps.length) (fun k => tps.getD k []) i =
        List.replicate n ((tps.getD i []).headD "") := by
  constructor
  · exact expandBatch_all_singleton n (by omega) tps hs
  · intro i hi
    rw [expandHeap_at n (List.range tps.length) _ i (List.nodup_range _)]
    rw [if_pos (List.mem_range.mpr hi)]
    obtain ⟨p, hp⟩ := hs (tps.getD i []) (getD_mem_of_lt [] tps i hi)
    rw [hp]
    rw [innerLoop_cons]
    simp only [List.nil_append, List.headD_cons]
    rw [← List.replicate_succ]
    congr 1
    omega

/-- Witness for C5 at n = 2, batch [[t]]: expansion yields [[t, t]] and the
heap cell holding the original group now contains the expanded list. -/
theorem claim_c5_witness :
    expandBatch 2 [["t"]] =
      Except.ok (([["t"]] : List (List String)).map (fun g => List.replicate 2 (g.headD ""))) ∧
    ∀ i < ([["t"]] : List (List String)).length,
      expandHeap 2 (List.range ([["t"]] : List (List String)).length)
        (fun k => ([["t"]] : List (List String)).getD k []) i =
        List.replicate 2 ((([["t"]] : List (List String)).getD i []).headD "") :=
  claim_c5 2 [["t"]] (by decide)
    (by intro g hg; simp at hg; exact ⟨"t", hg⟩)

/-- Counterexample to C5's purity conjunct: expanding the heap cell 0 holding
["t"] with coreCount 2 overwrites that very cell with ["t", "t"], so reading
the original reference after expansion no longer yields the unexpanded group —
the trace batch is mutated in place, not transformed purely. -/
theorem claim_c5_counterexample :
    expandHeap 2 [0] (fun _ => ["t"]) 0 = ["t", "t"] ∧
    expandHeap 2 [0] (fun _ => ["t"]) 0 ≠ ["t"] := by
  constructor
  · decide
  · decide

/-- Claim C8 (corrected).  The original claim put the variant identity before
the trace identity.  In the code the name is
<timestamp with colons removed and +0000 replaced by Z>_<stem of lead
trace>_<prefetcher>, i.e. the trace identity comes second and the variant
identity (prefetcher) last, and the zero UTC offset is replaced by Z rather
than elided. -/
theorem claim_c8 (env : Env) (od tp pf : String) (dr : Bool) (s : S) :
    (create_directory env od tp pf dr s).1 =
      od ++ "/" ++ (pyReplace (pyReplace (env.nowIso s.tick) ":" "") "+0000" "Z" ++ "_" ++
        stemOf tp ++ "_" ++ pf) := by
  have h := cd_fst env od tp pf dr s
  simp only [fmtNow] at h
  exact h

/-- Counterexample to C8 as stated: at the fixed timestamp the allocated name
is out/2024-01-02T030405Z_tr1_pf1 (trace stem before prefetcher, Z suffix); it
equals neither the claimed variant-first form nor the offset-elided form. -/
theorem claim_c8_counterexample :
    (create_directory envC8 "out" "tr1" "pf1" false initS).1 =
      "out/2024-01-02T030405Z_tr1_pf1" ∧
    (create_directory envC8 "out" "tr1" "pf1" false initS).1 ≠
      "out/2024-01-02T030405Z_pf1_tr1" ∧
    (create_directory envC8 "out" "tr1" "pf1" false initS).1 ≠
      "out/2024-01-02T030405_pf1_tr1" := by
  refine ⟨by decide, by decide, by decide⟩

lemma getD_map_any {α β : Type} (f : α → β) :
    ∀ (l : List α) (d : α) (d' : β) (i : Nat), i < l.length →
      (l.map f).getD i d' = f (l.getD i d) := by
  intro l
  induction l with
  | nil => intro d d' i h; simp at h
  | cons a l ih =>
    intro d d' i h
    cases i with
    | zero => rfl
    | succ i => exact ih d d' i (by simpa using h)

/-- Claim C10 (confirmed).  With repeated --trace arguments and no tracelist,
the batch has one group per --trace flag, and each group is built by iterating
the argument string character by character: group i is exactly the list of
single-character paths made of the characters of argument i, so an argument of
length n yields a group of n single-character paths. -/
theorem claim_c10 (env : Env) (args : Args) (ts : List String)
    (h1 : args.tracelist = none) (h2 : args.trace = some ts) :
    ∃ tps, traceBatch env args = Except.ok tps ∧ tps.length = ts.length ∧
      ∀ i, i < ts.length →
        tps.getD i [] = (ts.getD i "").data.map String.singleton ∧
        (tps.getD i []).length = (ts.getD i "").length := by
  refine ⟨ts.map (fun t => t.data.map (fun c => pyPath (String.singleton c))),
    ?_, by simp, ?_⟩
  · unfold traceBatch
    rw [h1]
    dsimp only
    rw [h2]
  intro i hi
  have hmap := getD_map_any (fun t => t.data.map (fun c => pyPath (String.singleton c)))
    ts "" [] i hi
  have hF : (ts.getD i "").data.map (fun c => pyPath (String.singleton c)) =
      (ts.getD i "").data.map String.singleton := by
    simp only [pyPath_singleton]
  constructor
  · rw [hmap]
    exact hF
  · rw [hmap]
    dsimp only
    rw [hF, List.length_map]
    rfl

/-- Witness for C10: the single argument ab yields one group equal to the list
of single-character paths a, b, of length 2. -/
theorem claim_c10_witness :
    ∃ tps, traceBatch happyEnv args10 = Except.ok tps ∧
      tps.length = (["ab"] : List String).length ∧
      ∀ i, i < (["ab"] : List String).length →
        tps.getD i [] = ((["ab"] : List String).getD i "").data.map String.singleton ∧
        (tps.getD i []).length = ((["ab"] : List String).getD i "").length :=
  claim_c10 happyEnv args10 ["ab"] rfl rfl

/-- Claim C3 (corrected).  The failure half of the original claim holds: if
the build step runs (skip_make unset) and ./config.sh exits non-zero, main
fails (with the CalledProcessError carrying the captured stdout/stderr
whenever the configure step was reached) and zero simulator processes are
launched; likewise for a failing make.  The success half is amended: build
success alone does not guarantee one launch per group, because a later
per-group failure still aborts the loop — the guarantee holds when the whole
invocation succeeds: if main returns ok, exactly one simulator process was
launched per trace group of the batch. -/
theorem claim_c3 (env : Env) (args : Args) :
    (args.skip_make = false → env.configure.exitCode ≠ 0 →
      (∃ e, (mainFn env args initS).1 = Except.error e) ∧
      (mainFn env args initS).2.events.countP isLaunch = 0 ∧
      (Event.configure ∈ (mainFn env args initS).2.events →
        (mainFn env args initS).1 = Except.error (Err.calledProcessError
          ["./config.sh", resolveP env ("temp_" ++ toString (0 : Nat) ++ "/champsim_config.json")]
          env.configure.stdout env.configure.stderr))) ∧
    (args.skip_make = false → env.configure.exitCode = 0 → env.make.exitCode ≠ 0 →
      (∃ e, (mainFn env args initS).1 = Except.error e) ∧
      (mainFn env args initS).2.events.countP isLaunch = 0 ∧
      (Event.make ∈ (mainFn env args initS).2.events →
        (mainFn env args initS).1 = Except.error (Err.calledProcessError ["make", "-j", "28"]
          env.make.stdout env.make.stderr))) ∧
    (∀ tps, traceBatch env args = Except.ok tps → (mainFn env args initS).1 = Except.ok () →
      (mainFn env args initS).2.events.countP isLaunch = tps.length) := by
  obtain ⟨t, hev, _, _, _, _, _, hcount, _, _, hicfg, hjmk⟩ := main_spec env args initS
  have hevt : (mainFn env args initS).2.events = t := by simpa using hev
  rw [hevt]
  refine ⟨fun hsk hc => ?_, fun hsk hc hm => ?_, fun tps htps hok => hcount hok tps htps⟩
  · obtain ⟨he, hl, hcfg⟩ := hicfg hsk hc
    exact ⟨he, hl, hcfg⟩
  · obtain ⟨he, hl, hmk⟩ := hjmk hsk hc hm
    exact ⟨he, hl, hmk⟩

/-- Witness for C3: under envB (./config.sh exits 1) main fails with the
captured output and launches nothing; under happyEnv (all success, two groups)
exactly two processes are launched. -/
theorem claim_c3_witness :
    ((mainFn envB argsH initS).1 = Except.error (Err.calledProcessError
       ["./config.sh", resolveP envB ("temp_" ++ toString (0 : Nat) ++ "/champsim_config.json")]
       "so" "se") ∧
     (mainFn envB argsH initS).2.events.countP isLaunch = 0) ∧
    (mainFn happyEnv argsH initS).2.events.countP isLaunch = 2 := by
  refine ⟨⟨?_, ?_⟩, ?_⟩
  · exact ((claim_c3 envB argsH).1 rfl (by decide)).2.2 (by decide)
  · exact ((claim_c3 envB argsH).1 rfl (by decide)).2.1
  · exact (claim_c3 happyEnv argsH).2.2 [["t1"], ["t2"]] (by decide) (by decide)

/-- Counterexample to C3 as stated: under env1 with default flags the build
step runs and SUCCEEDS (configure and make both execute with exit code 0), the
batch has two groups, yet zero simulator processes are launched — the sha1sum
failure of the first group aborts the loop after the successful build — so
"when the build succeeds, exactly one simulator process is launched per group"
is false of the code. -/
theorem claim_c3_counterexample :
    argsH.skip_make = false ∧
    env1.configure.exitCode = 0 ∧ env1.make.exitCode = 0 ∧
    Event.configure ∈ (mainFn env1 argsH initS).2.events ∧
    Event.make ∈ (mainFn env1 argsH initS).2.events ∧
    traceBatch env1 argsH = Except.ok [["t1"], ["t2"]] ∧
    (mainFn env1 argsH initS).2.events.countP isLaunch = 0 := by
  refine ⟨by decide, by decide, by decide, by decide, by decide, by decide, by decide⟩

/-- Claim C4 (corrected).  The original claim said every group with a bad
length triggers a ShapeError; the code validates only the FIRST group
(tracepaths[0]).  Amended claim: if the first group's length is neither 1 nor
num_cores (including num_cores = 1 with a multi-entry first group), main stops
with the generic ValueError before any run output directory is created and
before any process is launched — the final state holds exactly the temp-dir
mkdir and the config copy, nothing else. -/
theorem claim_c4 (env : Env) (args : Args) (tp0 : List String)
    (rest : List (List String)) (s : S)
    (htb : traceBatch env args = Except.ok (tp0 :: rest))
    (h1 : tp0.length ≠ 1) (h2 : tp0.length ≠ env.config.num_cores)
    (htemp : pexists env { s with uuidCtr := s.uuidCtr + 1 }
      ("temp_" ++ toString s.uuidCtr) = false)
    (hcopy : env.copyfileOk args.config
      ("temp_" ++ toString s.uuidCtr ++ "/champsim_config.json") = true) :
    mainFn env args s = (Except.error (Err.valueError
      "The number of traces must be equal to the number of cores or one."),
      pushEvent (mkdirS { s with uuidCtr := s.uuidCtr + 1 } ("temp_" ++ toString s.uuidCtr))
        (Event.copyfile args.config
          ("temp_" ++ toString s.uuidCtr ++ "/champsim_config.json"))) := by
  simp only [mainFn, htb]
  rw [htemp]
  simp only [Bool.false_eq_true, if_false]
  rw [hcopy]
  simp only [eq_self_iff_true, if_true]
  rw [if_pos ⟨h1, h2⟩]

/-- Witness for C4: under env4 (two cores) the single --trace argument abc
yields the first group [a, b, c] of length 3, and main stops with the
ValueError having created only temp_0 and the config copy. -/
theorem claim_c4_witness :
    mainFn env4 argsW4 initS = (Except.error (Err.valueError
      "The number of traces must be equal to the number of cores or one."),
      pushEvent (mkdirS { initS with uuidCtr := initS.uuidCtr + 1 }
          ("temp_" ++ toString initS.uuidCtr))
        (Event.copyfile argsW4.config
          ("temp_" ++ toString initS.uuidCtr ++ "/champsim_config.json"))) :=
  claim_c4 env4 argsW4 ["a", "b", "c"] [] initS (by decide) (by decide) (by decide)
    (by decide) (by decide)

/-- Counterexample to C4 as stated: the batch from --trace ab --trace abc under
two cores contains the group [a, b, c] whose length 3 is neither 1 nor 2, yet
no ShapeError is raised — main succeeds and launches both groups, because only
the first group is ever validated. -/
theorem claim_c4_counterexample :
    traceBatch env4 args4 = Except.ok [["a", "b"], ["a", "b", "c"]] ∧
    (mainFn env4 args4 initS).1 = Except.ok () ∧
    (mainFn env4 args4 initS).2.events.countP isLaunch = 2 := by
  refine ⟨by decide, by decide, by decide⟩

/-- Claim C6 (confirmed).  In every invocation, each launched process is
preceded by the metadata write into that run's directory (covered), all
persisted records carry one and the same run id, and the per-group simulation
ids are pairwise distinct (freshly generated per group). -/
theorem claim_c6 (env : Env) (args : Args) :
    covered (mainFn env args initS).2.events [] = true ∧
    (∀ a ∈ runIds (mainFn env args initS).2.events,
      ∀ b ∈ runIds (mainFn env args initS).2.events, a = b) ∧
    (simIds (mainFn env args initS).2.events).Pairwise (· ≠ ·) := by
  obtain ⟨t, hev, hcov, hrid, hpair, _⟩ := main_spec env args initS
  have hevt : (mainFn env args initS).2.events = t := by simpa using hev
  rw [hevt]
  exact ⟨hcov [], fun a ha b hb => (hrid a ha).trans (hrid b hb).symm,
    hpair.imp Nat.ne_of_lt⟩

/-- Claim C7 (corrected).  The original claim said the build runs iff
force-rebuild is set or no artifact exists for the variant.  The code has no
force-rebuild flag and never checks for an existing artifact: the build runs
iff --skip-make is NOT given.  Amended claim: configure events occur only with
skip_make unset, a successful non-skipped run does configure, and the build
phase is entirely independent of the filesystem view (initExists) — it depends
only on the configure/make outcomes and the working directory. -/
theorem claim_c7 (env : Env) (args : Args) :
    ((Event.configure ∈ (mainFn env args initS).2.events → args.skip_make = false) ∧
     ((mainFn env args initS).1 = Except.ok () → args.skip_make = false →
       Event.configure ∈ (mainFn env args initS).2.events)) ∧
    (∀ env₁ env₂ : Env, ∀ args' : Args, ∀ cp : String, ∀ s : S,
      env₁.configure = env₂.configure → env₁.make = env₂.make → env₁.cwd = env₂.cwd →
      buildPhase env₁ args' cp s = buildPhase env₂ args' cp s) := by
  constructor
  · obtain ⟨t, hev, _, _, _, _, _, _, hmem, hokcfg, _, _⟩ := main_spec env args initS
    have hevt : (mainFn env args initS).2.events = t := by simpa using hev
    rw [hevt]
    exact ⟨fun h => hmem (Or.inl h), hokcfg⟩
  · intro env₁ env₂ args' cp s h1 h2 h3
    unfold buildPhase resolveP
    rw [h1, h2, h3]

/-- Witness for C7: with the simulator binary already present (envArt) and
skip_make unset, the configure step still runs; and the build phase is
unchanged when the artifact is erased from the filesystem view. -/
theorem claim_c7_witness :
    Event.configure ∈ (mainFn envArt argsH initS).2.events ∧
    buildPhase envArt argsH "x" initS =
      buildPhase { envArt with initExists := fun _ => false } argsH "x" initS := by
  constructor
  · exact (claim_c7 envArt argsH).1.2 (by decide) rfl
  · exact (claim_c7 envArt argsH).2 envArt { envArt with initExists := fun _ => false }
      argsH "x" initS rfl rfl rfl

/-- Counterexample to C7 as stated: the artifact bin/champsim exists and
force-rebuild is not set (default flags), yet the build is triggered —
configure and make both run. -/
theorem claim_c7_counterexample :
    envArt.initExists "bin/champsim" = true ∧ argsH.skip_make = false ∧
    Event.configure ∈ (mainFn envArt argsH initS).2.events ∧
    Event.make ∈ (mainFn envArt argsH initS).2.events := by
  refine ⟨by decide, by decide, by decide, by decide⟩

/-- Claim C9 (corrected).  The original claim said the temp config copy is
removed at the very end regardless of individual run outcomes.  rmtree is the
last statement of main with no try/finally, so the amended claim holds: on a
fully successful batch the last event removes the temp directory, but when any
per-group (or earlier) step fails, the error propagates and no rmtree ever
happens. -/
theorem claim_c9 (env : Env) (args : Args) (s : S)
    (h0 : s.events.countP isRmtree = 0) :
    ((mainFn env args s).1 = Except.ok () →
      (mainFn env args s).2.events.getLast? =
        some (Event.rmtree ("temp_" ++ toString s.uuidCtr))) ∧
    (∀ e, (mainFn env args s).1 = Except.error e →
      (mainFn env args s).2.events.countP isRmtree = 0) := by
  obtain ⟨t, hev, _, _, _, hlast, hrm, _⟩ := main_spec env args s
  constructor
  · intro hok
    rw [hev]
    exact getLast?_append_right (hlast hok) s.events
  · intro e he
    rw [hev, List.countP_append, h0, hrm e he]

/-- Witness for C9: a fully successful one-group run ends with the rmtree of
temp_0 as its very last event. -/
theorem claim_c9_witness :
    (mainFn envH1 argsH initS).2.events.getLast? =
      some (Event.rmtree ("temp_" ++ toString initS.uuidCtr)) :=
  (claim_c9 envH1 argsH initS (by decide)).1 (by decide)

/-- Counterexample to C9 as stated: with the only group's checksum failing,
main aborts with the CalledProcessError after having created temp_0, and no
rmtree event occurs — the temp configuration copy is not removed. -/
theorem claim_c9_counterexample :
    (mainFn env9 argsH initS).1 =
      Except.error (Err.calledProcessError ["sha1sum", "t1"] "" "") ∧
    Event.mkdir "temp_0" ∈ (mainFn env9 argsH initS).2.events ∧
    (mainFn env9 argsH initS).2.events.countP isRmtree = 0 := by
  refine ⟨by decide, by decide, by decide⟩
